import Mathlib

/-!
Shallow embedding of `src/attr/_funcs.py` (functions `asdict`, `fromdict`,
`has`, `assoc`) and proofs about the claims of the specification.

Modelling conventions:
* Python runtime values are the inductive `Val`; a declaratively-attributed
  ("attrs") instance is `Val.inst cls fields`, where `fields` is the ordered
  association list of field name to value.
* The class metadata (`__attrs_attrs__`, produced by the out-of-scope
  `_make` module) is a `Registry`: an association list from class name to
  the ordered list of field descriptors (`Attr`, name plus optional
  declared type).  A class "carries the metadata slot" iff it occurs in the
  registry; this models the spec's field-descriptor data model (§3), since
  `_make` itself is not part of the sources.
* Type annotations (the old `typing` module values the code inspects via
  `__union_params__` / `__parameters__` / `issubclass`) are the inductive
  `Ty`.  Union parameter lists keep their written order, as `typing` does.
* Exceptions are the error side of `Except PyErr`, sequenced with the
  exception-propagating `exBind`; `PyErr.fuelOut` is a model artifact used
  for the recursion fuel and corresponds to no Python exception.  Exact
  exception message strings for host-level errors (`AttributeError` etc.)
  follow CPython's phrasing; `str()` of container values is rendered
  without the quoting `repr` would add.
* `dict_factory` / `tuple_factory` are specialised to the default `dict`
  (insertion-ordered association lists); no claim involves another factory.
-/

namespace Attrs

/-- Type expressions inspected by `fromdict`'s dispatch: a class by name, the
`NoneType`, `typing.Any`, `str`, opaque leaves such as `int`, `dict`/`Dict`
with optional key/value parameters, `list`/`List`, `set`/`Set`,
`tuple`/`Tuple` with optional element parameter, and `Union` with its ordered
parameter list. -/
inductive Ty where
  | clsT (c : String)
  | noneT
  | anyT
  | strT
  | intT
  | dictT (param : Option (Ty × Ty))
  | listT (param : Option Ty)
  | setT (param : Option Ty)
  | tupleT (param : Option Ty)
  | unionT (params : List Ty)

/-- Python runtime values: `None`, ints, strings, lists, tuples, sets,
dicts (insertion-ordered pair lists) and attrs-class instances. -/
inductive Val where
  | none
  | int (n : Int)
  | str (s : String)
  | list (xs : List Val)
  | tuple (xs : List Val)
  | set (xs : List Val)
  | dict (kvs : List (Val × Val))
  | inst (cls : String) (fields : List (String × Val))

/-- Python exceptions that `_funcs.py` can raise or propagate. -/
inductive PyErr where
  | typeError (msg : String)
  | keyError (msg : String)
  | attributeError (msg : String)
  | valueError (msg : String)
  | fuelOut

/-- Field descriptor: the `attr.Attribute` metadata record the module reads
(`a.name` and `a.type`). -/
structure Attr where
  name : String
  type : Option Ty

/-- Modelled from the spec: class-level field-descriptor metadata
(`__attrs_attrs__`, attached by the out-of-scope `_make` module) as an
ordered association from class name to field-descriptor list (§3). -/
abbrev Registry := List (String × List Attr)

/-- Exception-propagating sequencing: run `x`; on success feed the result
to `f`, on an exception propagate it unchanged (Python's implicit
exception flow between statements). -/
def exBind {α β : Type} (x : Except PyErr α) (f : α → Except PyErr β) :
    Except PyErr β :=
  match x with
  | .error e => .error e
  | .ok v => f v

mutual
/-- Structural equality on type expressions (Python `is` on the interned
`typing` objects the code compares). -/
def Ty.beq : Ty → Ty → Bool
  | .clsT a, .clsT b => a == b
  | .noneT, .noneT => true
  | .anyT, .anyT => true
  | .strT, .strT => true
  | .intT, .intT => true
  | .dictT Option.none, .dictT Option.none => true
  | .dictT (some (a, b)), .dictT (some (c, d)) => Ty.beq a c && Ty.beq b d
  | .listT Option.none, .listT Option.none => true
  | .listT (some a), .listT (some b) => Ty.beq a b
  | .setT Option.none, .setT Option.none => true
  | .setT (some a), .setT (some b) => Ty.beq a b
  | .tupleT Option.none, .tupleT Option.none => true
  | .tupleT (some a), .tupleT (some b) => Ty.beq a b
  | .unionT ps, .unionT qs => Ty.beqList ps qs
  | _, _ => false
termination_by a => sizeOf a

/-- Elementwise `Ty.beq` on parameter lists. -/
def Ty.beqList : List Ty → List Ty → Bool
  | [], [] => true
  | a :: as', b :: bs' => Ty.beq a b && Ty.beqList as' bs'
  | _, _ => false
termination_by a => sizeOf a
end

mutual
/-- Structural equality on values (Python `==`, as generated by attrs'
`__eq__` for instances and built in for the containers and scalars). -/
def Val.beq : Val → Val → Bool
  | .none, .none => true
  | .int a, .int b => a == b
  | .str a, .str b => a == b
  | .list a, .list b => Val.beqList a b
  | .tuple a, .tuple b => Val.beqList a b
  | .set a, .set b => Val.beqList a b
  | .dict a, .dict b => Val.beqPairs a b
  | .inst c a, .inst d b => c == d && Val.beqFields a b
  | _, _ => false
termination_by a => sizeOf a

/-- Elementwise `Val.beq` on element lists. -/
def Val.beqList : List Val → List Val → Bool
  | [], [] => true
  | a :: as', b :: bs' => Val.beq a b && Val.beqList as' bs'
  | _, _ => false
termination_by a => sizeOf a

/-- Pairwise `Val.beq` on dict entry lists. -/
def Val.beqPairs : List (Val × Val) → List (Val × Val) → Bool
  | [], [] => true
  | (k, v) :: as', (l, w) :: bs' => Val.beq k l && Val.beq v w && Val.beqPairs as' bs'
  | _, _ => false
termination_by a => sizeOf a

/-- Pairwise `Val.beq` on instance field lists. -/
def Val.beqFields : List (String × Val) → List (String × Val) → Bool
  | [], [] => true
  | (k, v) :: as', (l, w) :: bs' => k == l && Val.beq v w && Val.beqFields as' bs'
  | _, _ => false
termination_by a => sizeOf a
end

/-- Lookup of a class name in the registry (probing the class for its
`__attrs_attrs__` metadata slot). -/
def lookupClass : Registry → String → Option (List Attr)
  | [], _ => Option.none
  | (c, attrs) :: rest, d => if c = d then some attrs else lookupClass rest d

/-- Source `has` (lines 182-192): `getattr(cls, "__attrs_attrs__", None) is
not None`, i.e. whether the class carries the field-descriptor metadata
slot, regardless of whether the descriptor sequence is empty. -/
def has (reg : Registry) (c : String) : Bool :=
  (lookupClass reg c).isSome

/-- Runtime class (`v.__class__`) of a value, as a class name. -/
def classOf : Val → String
  | .none => "NoneType"
  | .int _ => "int"
  | .str _ => "str"
  | .list _ => "list"
  | .tuple _ => "tuple"
  | .set _ => "set"
  | .dict _ => "dict"
  | .inst c _ => c

/-- First-match lookup in an instance's field list. -/
def lookupField : List (String × Val) → String → Option Val
  | [], _ => Option.none
  | (n, w) :: rest, k => if n = k then some w else lookupField rest k

/-- Python `getattr(inst, name)`: field access on an instance,
`AttributeError` when absent or when the value is not an instance. -/
def getattr (v : Val) (n : String) : Except PyErr Val :=
  match v with
  | .inst c fs =>
    match lookupField fs n with
    | some w => .ok w
    | Option.none =>
      .error (.attributeError ("'" ++ c ++ "' object has no attribute '" ++ n ++ "'"))
  | other =>
    .error (.attributeError ("'" ++ classOf other ++ "' object has no attribute '" ++ n ++ "'"))

/-- Modelled from the spec: `fields(cls)` from the out-of-scope `_make`
module — returns the class's ordered field descriptors, raising when the
class is not declaratively attributed (§3, §6). -/
def fieldsOf (reg : Registry) (c : String) : Except PyErr (List Attr) :=
  match lookupClass reg c with
  | some attrs => .ok attrs
  | Option.none => .error (.valueError (c ++ " is not an attrs-decorated class."))

/-- Filter check (lines 44-45): with no filter every field is kept;
otherwise the user callback decides (and, like any Python callable, may
raise — hence the `Except`). -/
def filtCheck (filt : Option (Attr → Val → Except PyErr Bool)) (a : Attr)
    (v : Val) : Except PyErr Bool :=
  match filt with
  | some f => f a v
  | Option.none => .ok true

mutual
/-- Source `asdict` (lines 14-68), specialised to the default
`dict_factory`: return the attrs attribute values of `inst` as a dict,
optionally recursing, filtering via `filt`, and retaining collection
types. -/
def asdict (fuel : Nat) (reg : Registry) (recurse : Bool)
    (filt : Option (Attr → Val → Except PyErr Bool)) (retain : Bool)
    (inst : Val) : Except PyErr Val :=
  match fuel with
  | 0 => .error .fuelOut
  | fuel + 1 =>
    exBind (fieldsOf reg (classOf inst)) (fun attrs =>
      exBind (asdictLoop fuel reg recurse filt retain inst attrs) (fun pairs =>
        .ok (Val.dict (pairs.map (fun p => (Val.str p.1, p.2))))))
termination_by (fuel, 0, 0)

/-- Loop of `asdict` (lines 42-67): one iteration per field descriptor, in
declaration order; a field is skipped exactly when the filter is present
and returns false (lines 44-45). -/
def asdictLoop (fuel : Nat) (reg : Registry) (recurse : Bool)
    (filt : Option (Attr → Val → Except PyErr Bool)) (retain : Bool)
    (inst : Val) (attrs : List Attr) : Except PyErr (List (String × Val)) :=
  match attrs with
  | [] => .ok []
  | a :: rest =>
    exBind (getattr inst a.name) (fun v =>
      exBind (filtCheck filt a v) (fun keep =>
        if keep then
          exBind (asdictEntry fuel reg recurse filt retain v) (fun v' =>
            exBind (asdictLoop fuel reg recurse filt retain inst rest) (fun tail =>
              .ok ((a.name, v') :: tail)))
        else asdictLoop fuel reg recurse filt retain inst rest))
termination_by (fuel, 3, attrs.length)

/-- Conversion of one field value by `asdict` (lines 46-67).  When
recursing: attrs instances are converted by a nested `asdict` call that
forwards the filter but not `retain_collection_types` (lines 47-49); tuples,
lists and sets are rebuilt — in the original runtime type only when
`retain` is set, else as a `list` — with attrs elements converted
(lines 50-57); dicts are rebuilt with attrs keys and values converted by
nested calls that forward neither the filter nor `retain` (lines 58-63);
everything else, strings included, is stored unchanged (lines 64-65). -/
def asdictEntry (fuel : Nat) (reg : Registry) (recurse : Bool)
    (filt : Option (Attr → Val → Except PyErr Bool)) (retain : Bool)
    (v : Val) : Except PyErr Val :=
  if recurse then
    if has reg (classOf v) then
      asdict fuel reg true filt false v
    else
      match v with
      | .tuple xs =>
        exBind (asdictItems fuel reg filt xs) (fun ys =>
          .ok (if retain then Val.tuple ys else Val.list ys))
      | .list xs =>
        exBind (asdictItems fuel reg filt xs) (fun ys => .ok (Val.list ys))
      | .set xs =>
        exBind (asdictItems fuel reg filt xs) (fun ys =>
          .ok (if retain then Val.set ys else Val.list ys))
      | .dict kvs =>
        exBind (asdictPairs fuel reg kvs) (fun kvs' => .ok (Val.dict kvs'))
      | other => .ok other
  else .ok v
termination_by (fuel, 2, 0)

/-- Element conversion for sequence/set fields (lines 52-57): each element
that is an attrs instance is converted by a nested `asdict` call forwarding
the filter; other elements pass through unchanged. -/
def asdictItems (fuel : Nat) (reg : Registry)
    (filt : Option (Attr → Val → Except PyErr Bool)) (xs : List Val) :
    Except PyErr (List Val) :=
  match xs with
  | [] => .ok []
  | i :: rest =>
    exBind (if has reg (classOf i) then asdict fuel reg true filt false i
            else .ok i) (fun i' =>
      exBind (asdictItems fuel reg filt rest) (fun rest' => .ok (i' :: rest')))
termination_by (fuel, 1, xs.length)

/-- Pair conversion for dict fields (lines 58-63): keys and values that are
attrs instances are converted by nested `asdict` calls with the default
(absent) filter; others pass through unchanged. -/
def asdictPairs (fuel : Nat) (reg : Registry) (kvs : List (Val × Val)) :
    Except PyErr (List (Val × Val)) :=
  match kvs with
  | [] => .ok []
  | (kk, vv) :: rest =>
    exBind (if has reg (classOf kk) then asdict fuel reg true Option.none false kk
            else .ok kk) (fun kk' =>
      exBind (if has reg (classOf vv) then asdict fuel reg true Option.none false vv
              else .ok vv) (fun vv' =>
        exBind (asdictPairs fuel reg rest) (fun rest' => .ok ((kk', vv') :: rest'))))
termination_by (fuel, 1, kvs.length)
end

mutual
/-- Python `str()` of a value, used by the error-message formatting and by
the `name + str(k)` context extension in `fromdict` (line 129).  Container
elements are rendered without `repr` quoting. -/
def pyStr : Val → String
  | .none => "None"
  | .int n => toString n
  | .str s => s
  | .list xs => "[" ++ pyStrList xs ++ "]"
  | .tuple xs => "(" ++ pyStrList xs ++ ")"
  | .set xs => "\x7b" ++ pyStrList xs ++ "\x7d"
  | .dict kvs => "\x7b" ++ pyStrPairs kvs ++ "\x7d"
  | .inst c fs => c ++ "(" ++ pyStrFields fs ++ ")"
termination_by a => sizeOf a

/-- Comma-joined rendering of list elements. -/
def pyStrList : List Val → String
  | [] => ""
  | [x] => pyStr x
  | x :: rest => pyStr x ++ ", " ++ pyStrList rest
termination_by a => sizeOf a

/-- Comma-joined rendering of dict entries. -/
def pyStrPairs : List (Val × Val) → String
  | [] => ""
  | [(k, v)] => pyStr k ++ ": " ++ pyStr v
  | (k, v) :: rest => pyStr k ++ ": " ++ pyStr v ++ ", " ++ pyStrPairs rest
termination_by a => sizeOf a

/-- Comma-joined rendering of instance fields. -/
def pyStrFields : List (String × Val) → String
  | [] => ""
  | [(n, v)] => n ++ "=" ++ pyStr v
  | (n, v) :: rest => n ++ "=" ++ pyStr v ++ ", " ++ pyStrFields rest
termination_by a => sizeOf a
end

mutual
/-- Rendering of a type expression (Python `str(typ)` in the error
message). -/
def tyStr : Ty → String
  | .clsT c => c
  | .noneT => "NoneType"
  | .anyT => "typing.Any"
  | .strT => "str"
  | .intT => "int"
  | .dictT Option.none => "dict"
  | .dictT (some (k, v)) => "typing.Dict[" ++ tyStr k ++ ", " ++ tyStr v ++ "]"
  | .listT Option.none => "list"
  | .listT (some t) => "typing.List[" ++ tyStr t ++ "]"
  | .setT Option.none => "set"
  | .setT (some t) => "typing.Set[" ++ tyStr t ++ "]"
  | .tupleT Option.none => "tuple"
  | .tupleT (some t) => "typing.Tuple[" ++ tyStr t ++ "]"
  | .unionT ps => "typing.Union[" ++ tyStrList ps ++ "]"
termination_by a => sizeOf a

/-- Comma-joined rendering of union parameters. -/
def tyStrList : List Ty → String
  | [] => ""
  | [t] => tyStr t
  | t :: rest => tyStr t ++ ", " ++ tyStrList rest
termination_by a => sizeOf a
end

/-- Dotted context path `'.'.join(context) + '.' + key_name` used by the
missing-key error (line 170) and the type-mismatch message (line 157). -/
def dottedPath (context : List String) (key : String) : String :=
  String.intercalate "." context ++ "." ++ key

/-- Message of the re-raised type-mismatch error (lines 152-158): it carries
the offending value, the declared type, the dotted context path ending at
the current field's `key_name`, and the underlying reason. -/
def unableMsg (a : Val) (typ : Ty) (context : List String) (key : String)
    (reason : String) : String :=
  "Unable to deserialize " ++ pyStr a ++ " as " ++ tyStr typ ++ " at " ++
    dottedPath context key ++ " because " ++ reason

/-- First value in a dict whose key equals the string `k` (Python string-key
lookup). -/
def lookupValKey : List (Val × Val) → String → Option Val
  | [], _ => Option.none
  | (kk, vv) :: rest, k => if Val.beq kk (.str k) then some vv else lookupValKey rest k

/-- Python `a.items()`: the entry list of a dict, `AttributeError` on any
other value. -/
def pyItems (a : Val) : Except PyErr (List (Val × Val)) :=
  match a with
  | .dict kvs => .ok kvs
  | other => .error (.attributeError ("'" ++ classOf other ++ "' object has no attribute 'items'"))

/-- Python iteration `for v in a`: list/tuple/set elements, dict keys, the
characters of a string, `TypeError` for non-iterables. -/
def iterElems (a : Val) : Except PyErr (List Val) :=
  match a with
  | .list xs => .ok xs
  | .tuple xs => .ok xs
  | .set xs => .ok xs
  | .dict kvs => .ok (kvs.map Prod.fst)
  | .str s => .ok (s.toList.map (fun c => Val.str (String.mk [c])))
  | other => .error (.typeError ("'" ++ classOf other ++ "' object is not iterable"))

/-- Python `dct.get(k)` (line 166): value or `None` for a dict,
`AttributeError` on any other receiver. -/
def pyGet (dct : Val) (k : String) : Except PyErr Val :=
  match dct with
  | .dict kvs =>
    .ok (match lookupValKey kvs k with
         | some v => v
         | Option.none => Val.none)
  | other => .error (.attributeError ("'" ++ classOf other ++ "' object has no attribute 'get'"))

/-- Python substring containment used by `key in s` on strings. -/
def strContainsSub (s k : String) : Bool :=
  if k = "" then true else (s.splitOn k).length > 1

/-- Python `key_name in dct` (line 167): key membership for dicts, element
membership for sequences and sets, substring test for strings, `TypeError`
for non-containers. -/
def pyContains (dct : Val) (k : String) : Except PyErr Bool :=
  match dct with
  | .dict kvs => .ok (kvs.any (fun p => Val.beq p.1 (.str k)))
  | .list xs => .ok (xs.any (fun x => Val.beq x (.str k)))
  | .tuple xs => .ok (xs.any (fun x => Val.beq x (.str k)))
  | .set xs => .ok (xs.any (fun x => Val.beq x (.str k)))
  | .str s => .ok (strContainsSub s k)
  | other => .error (.typeError ("argument of type '" ++ classOf other ++ "' is not iterable"))

/-- Python `dct[key_name]` (line 168) with a string key: dict lookup raising
`KeyError` when absent, `TypeError` on other receivers. -/
def pyIndex (dct : Val) (k : String) : Except PyErr Val :=
  match dct with
  | .dict kvs =>
    match lookupValKey kvs k with
    | some v => .ok v
    | Option.none => .error (.keyError k)
  | .list _ => .error (.typeError "list indices must be integers, not str")
  | .tuple _ => .error (.typeError "tuple indices must be integers, not str")
  | .str _ => .error (.typeError "string indices must be integers")
  | other => .error (.typeError ("'" ++ classOf other ++ "' object is not subscriptable"))

/-- Keyword configuration of `fromdict` (lines 71-72): the `recurse` and
`ignore_missing` flags, the `rename` callback, and the
`union_discriminator` callback (which, like any Python callable, may raise:
hence the `Except`). -/
structure Config where
  recurse : Bool
  ignore_missing : Bool
  rename : String → String
  union_discriminator : Val → Ty → Except PyErr Ty

/-- Source `_is_optional` (lines 95-103): a `Union` type one of whose
parameters is `NoneType` (`typing.Any` is not a union here, matching the
`not typ is Any` guard). -/
def isOptionalTy : Ty → Bool
  | .unionT ps => ps.any (fun t => Ty.beq t .noneT)
  | _ => false

/-- Python `Union[tuple(ts)]` (lines 117-119): collapses to the single type
when one parameter remains, else stays a union. -/
def mkUnion (ts : List Ty) : Ty :=
  match ts with
  | [t] => t
  | _ => .unionT ts

/-- Source `except TypeError` handler of `deserialize_val` (lines 151-158):
a `TypeError` escaping the dispatch body is re-raised as the formatted
type-mismatch `TypeError`; every other outcome passes through unmodified.
The path in the message ends at the enclosing field's `key_name` (the loop
variable captured by the closure), not at the nested position `name`. -/
def wrapTE (a : Val) (typ : Ty) (context : List String) (key : String)
    (r : Except PyErr Val) : Except PyErr Val :=
  match r with
  | .error (.typeError e) => .error (.typeError (unableMsg a typ context key e))
  | r => r

/-- Raw-value resolution for one field (lines 165-170): `dct.get` under
`ignore_missing` (absent keys become `None`), else the `in`-test followed
by indexing, or the missing-key `KeyError` carrying the dotted path. -/
def resolveRaw (cfg : Config) (dct : Val) (context : List String)
    (key : String) : Except PyErr Val :=
  if cfg.ignore_missing then pyGet dct key
  else
    exBind (pyContains dct key) (fun mem =>
      if mem then pyIndex dct key
      else .error (.keyError (dottedPath context key)))

mutual
/-- Source `deserialize_val` (lines 107-158): the recursive type dispatch
wrapped in `try`/`except TypeError` (`wrapTE`). -/
def deserializeVal (fuel : Nat) (reg : Registry) (cfg : Config)
    (a : Val) (typ : Ty) (name : String) (context : List String)
    (key_name : String) : Except PyErr Val :=
  match fuel with
  | 0 => .error .fuelOut
  | fuel + 1 =>
    wrapTE a typ context key_name
      (deserializeValBody fuel reg cfg a typ name context key_name)
termination_by (fuel, 0, 0)

/-- Dispatch body of `deserialize_val` (the `try` block, lines 108-150), in
the source's branch order: attrs class (line 109), optional (line 111),
`Dict` (line 124), non-`str` iterable (line 132), bare `Union` (line 146),
opaque leaf (line 149).  A class that is not attrs-decorated fails every
`issubclass` test and reaches the leaf case, as do `str`, `NoneType`,
`typing.Any` and scalar leaves. -/
def deserializeValBody (fuel : Nat) (reg : Registry) (cfg : Config)
    (a : Val) (typ : Ty) (name : String) (context : List String)
    (key_name : String) : Except PyErr Val :=
  match typ with
  | .clsT c =>
    if has reg c then fromdictInner fuel reg cfg c a (context ++ [name])
    else .ok a
  | .unionT ps =>
    if ps.any (fun t => Ty.beq t .noneT) then
      match a with
      | .none => .ok Val.none
      | _ =>
        if ps.length > 2 then
          deserializeVal fuel reg cfg a
            (mkUnion (ps.filter (fun t => !(Ty.beq t .noneT)))) name context key_name
        else
          match ps with
          | p :: _ => deserializeVal fuel reg cfg a p name context key_name
          | [] => .ok a
    else
      exBind (cfg.union_discriminator a (.unionT ps)) (fun actual =>
        deserializeVal fuel reg cfg a actual name context key_name)
  | .dictT (some (kg, vg)) =>
    exBind (pyItems a) (fun kvs =>
      exBind (deserDictPairs fuel reg cfg kvs kg vg name context key_name)
        (fun kvs' => .ok (Val.dict kvs')))
  | .dictT Option.none => .ok a
  | .listT param => deserContainer fuel reg cfg a Val.list param name context key_name
  | .setT param => deserContainer fuel reg cfg a Val.set param name context key_name
  | .tupleT param => deserContainer fuel reg cfg a Val.tuple param name context key_name
  | .strT => .ok a
  | .noneT => .ok a
  | .anyT => .ok a
  | .intT => .ok a
termination_by (fuel, 4, 0)

/-- Container rebuild (lines 132-145): the target constructor `mk` is
chosen from the declared type's name; with an element parameter each
element is dispatched with context `name + '[]'`, without one the raw
iterable is coerced elementwise-unchanged. -/
def deserContainer (fuel : Nat) (reg : Registry) (cfg : Config)
    (a : Val) (mk : List Val → Val) (param : Option Ty) (name : String)
    (context : List String) (key_name : String) : Except PyErr Val :=
  match param with
  | some gen =>
    exBind (iterElems a) (fun elems =>
      exBind (deserItems fuel reg cfg elems gen (name ++ "[]") context key_name)
        (fun ys => .ok (mk ys)))
  | Option.none =>
    exBind (iterElems a) (fun elems => .ok (mk elems))
termination_by (fuel, 3, 0)

/-- Elementwise dispatch for parameterized containers (lines 142-143). -/
def deserItems (fuel : Nat) (reg : Registry) (cfg : Config)
    (xs : List Val) (gen : Ty) (name : String) (context : List String)
    (key_name : String) : Except PyErr (List Val) :=
  match xs with
  | [] => .ok []
  | v :: rest =>
    exBind (deserializeVal fuel reg cfg v gen name context key_name) (fun v' =>
      exBind (deserItems fuel reg cfg rest gen name context key_name)
        (fun rest' => .ok (v' :: rest')))
termination_by (fuel, 2, xs.length)

/-- Key/value dispatch for parameterized `Dict` fields (lines 128-130): the
key is dispatched with context `name`, the value with `name + str(k)` for
the original key `k`. -/
def deserDictPairs (fuel : Nat) (reg : Registry) (cfg : Config)
    (kvs : List (Val × Val)) (kg vg : Ty) (name : String)
    (context : List String) (key_name : String) :
    Except PyErr (List (Val × Val)) :=
  match kvs with
  | [] => .ok []
  | (k, v) :: rest =>
    exBind (deserializeVal fuel reg cfg k kg name context key_name) (fun k' =>
      exBind (deserializeVal fuel reg cfg v vg (name ++ pyStr k) context key_name)
        (fun v' =>
          exBind (deserDictPairs fuel reg cfg rest kg vg name context key_name)
            (fun rest' => .ok ((k', v') :: rest'))))
termination_by (fuel, 2, kvs.length)

/-- Per-field dispatch guard (lines 172-175): dispatch on the declared type
only when recursing and the field has one; `deserialize_val` receives the
renamed key as both its `name` and its captured `key_name`. -/
def maybeDeserialize (fuel : Nat) (reg : Registry) (cfg : Config)
    (val : Val) (a : Attr) (context : List String) : Except PyErr Val :=
  match cfg.recurse, a.type with
  | true, some typ =>
    deserializeVal fuel reg cfg val typ (cfg.rename a.name) context
      (cfg.rename a.name)
  | _, _ => .ok val
termination_by (fuel, 1, 0)

/-- Source `_fromdict` (lines 105-177): walk the class's field descriptors
in declaration order, resolve each raw value from the source mapping,
optionally dispatch on the declared type, and construct the class from the
assembled values (line 177). -/
def fromdictInner (fuel : Nat) (reg : Registry) (cfg : Config)
    (cls : String) (dct : Val) (context : List String) : Except PyErr Val :=
  match fuel with
  | 0 => .error .fuelOut
  | fuel + 1 =>
    exBind (fieldsOf reg cls) (fun attrs =>
      exBind (fromdictLoop fuel reg cfg dct context attrs) (fun cons =>
        .ok (Val.inst cls cons)))
termination_by (fuel, 1, 0)

/-- Field loop of `_fromdict` (lines 163-175). -/
def fromdictLoop (fuel : Nat) (reg : Registry) (cfg : Config)
    (dct : Val) (context : List String) (attrs : List Attr) :
    Except PyErr (List (String × Val)) :=
  match attrs with
  | [] => .ok []
  | a :: rest =>
    exBind (resolveRaw cfg dct context (cfg.rename a.name)) (fun val =>
      exBind (maybeDeserialize fuel reg cfg val a context) (fun v =>
        exBind (fromdictLoop fuel reg cfg dct context rest) (fun tail =>
          .ok ((a.name, v) :: tail))))
termination_by (fuel, 2, attrs.length)
end

/-- Source `fromdict` (lines 71-180): construct an instance of `cls` from
the mapping `dct`, starting with an empty recursion context. -/
def fromdict (fuel : Nat) (reg : Registry) (cfg : Config) (cls : String)
    (dct : Val) : Except PyErr Val :=
  fromdictInner fuel reg cfg cls dct []

/-- Python `_obj_setattr(new, k, v)` on the modelled instance state:
overwrite the named field (or append it when absent from the stored
state). -/
def setField : List (String × Val) → String → Val → List (String × Val)
  | [], k, v => [(k, v)]
  | (n, w) :: rest, k, v =>
    if n = k then (k, v) :: rest else (n, w) :: setField rest k v

/-- Change loop of `assoc` (lines 207-214): apply each keyword change to the
copy, failing with the unknown-attribute `ValueError` naming the change key
and the class as soon as a change does not name a field descriptor. -/
def assocLoop (cls : String) (attrs : List Attr) (fs : List (String × Val)) :
    List (String × Val) → Except PyErr Val
  | [] => .ok (Val.inst cls fs)
  | (k, v) :: rest =>
    if attrs.any (fun a => a.name = k) then
      assocLoop cls attrs (setField fs k v) rest
    else
      .error (.valueError (k ++ " is not an attrs attribute on " ++ cls ++ "."))

/-- Source `assoc` (lines 195-215): shallow-copy the instance and apply the
keyword changes to the copy; the class name stands in for the class repr in
the error message. -/
def assoc (reg : Registry) (inst : Val) (changes : List (String × Val)) :
    Except PyErr Val :=
  match inst with
  | .inst cls fs =>
    match lookupClass reg cls with
    | some attrs => assocLoop cls attrs fs changes
    | Option.none =>
      .error (.attributeError ("'" ++ cls ++ "' object has no attribute '__attrs_attrs__'"))
  | other =>
    .error (.attributeError
      ("'" ++ classOf other ++ "' object has no attribute '__attrs_attrs__'"))

/-! Helper lemmas shared by the claim proofs. -/

theorem exBind_ok {α β : Type} (v : α) (f : α → Except PyErr β) :
    exBind (.ok v) f = f v := rfl

theorem exBind_error {α β : Type} (e : PyErr) (f : α → Except PyErr β) :
    exBind (.error e) f = .error e := rfl

theorem exBind_assoc {α β γ : Type} (x : Except PyErr α)
    (f : α → Except PyErr β) (g : β → Except PyErr γ) :
    exBind (exBind x f) g = exBind x (fun v => exBind (f v) g) := by
  cases x <;> rfl

theorem Val.beq_str (a b : String) : Val.beq (.str a) (.str b) = (a == b) := by
  simp [Val.beq]

theorem lookupField_append_absent (fs1 fs2 : List (String × Val)) (n : String)
    (h : n ∉ fs1.map Prod.fst) :
    lookupField (fs1 ++ fs2) n = lookupField fs2 n := by
  induction fs1 with
  | nil => simp
  | cons p rest ih =>
    simp only [List.map_cons, List.mem_cons] at h
    push_neg at h
    simp only [List.cons_append, lookupField]
    rw [if_neg (fun hc => h.1 hc.symm)]
    simpa using ih h.2

theorem lookupValKey_strmap (fs : List (String × Val)) (k : String) :
    lookupValKey (fs.map (fun p => (Val.str p.1, p.2))) k = lookupField fs k := by
  induction fs with
  | nil => simp [lookupValKey, lookupField]
  | cons p rest ih =>
    simp only [List.map_cons, lookupValKey, lookupField, Val.beq_str, beq_iff_eq]
    by_cases h : p.1 = k
    · simp [h]
    · simp [h, ih]

theorem any_beq_strmap (fs : List (String × Val)) (k : String) :
    (fs.map (fun p => (Val.str p.1, p.2))).any (fun p => Val.beq p.1 (.str k)) =
      fs.any (fun p => p.1 == k) := by
  induction fs with
  | nil => rfl
  | cons p rest ih => simp [List.any_cons, Val.beq_str, ih]

theorem pyContains_strmap (fs : List (String × Val)) (k : String) :
    pyContains (Val.dict (fs.map (fun p => (Val.str p.1, p.2)))) k =
      .ok (fs.any (fun p => p.1 == k)) := by
  simp only [pyContains]
  rw [any_beq_strmap]

theorem asdictLoop_append (fuel : Nat) (reg : Registry) (recurse : Bool)
    (filt : Option (Attr → Val → Except PyErr Bool)) (retain : Bool)
    (inst : Val) (l1 l2 : List Attr) :
    asdictLoop fuel reg recurse filt retain inst (l1 ++ l2) =
      exBind (asdictLoop fuel reg recurse filt retain inst l1) (fun p1 =>
        exBind (asdictLoop fuel reg recurse filt retain inst l2) (fun p2 =>
          .ok (p1 ++ p2))) := by
  induction l1 with
  | nil =>
    simp only [List.nil_append, asdictLoop, exBind_ok]
    cases asdictLoop fuel reg recurse filt retain inst l2 <;> simp [exBind]
  | cons a rest ih =>
    simp only [List.cons_append, asdictLoop]
    cases getattr inst a.name with
    | error e => simp [exBind]
    | ok v =>
      simp only [exBind_ok]
      cases filtCheck filt a v with
      | error e => simp [exBind]
      | ok keep =>
        simp only [exBind_ok]
        cases keep with
        | false => simpa using ih
        | true =>
          simp only [if_true]
          cases asdictEntry fuel reg recurse filt retain v with
          | error e => simp [exBind]
          | ok v' =>
            simp only [exBind_ok, ih, exBind_assoc]
            cases asdictLoop fuel reg recurse filt retain inst rest with
            | error e => simp [exBind]
            | ok p1 =>
              simp only [exBind_ok]
              cases asdictLoop fuel reg recurse filt retain inst l2 <;> simp [exBind]

theorem fromdictLoop_append (fuel : Nat) (reg : Registry) (cfg : Config)
    (dct : Val) (context : List String) (l1 l2 : List Attr) :
    fromdictLoop fuel reg cfg dct context (l1 ++ l2) =
      exBind (fromdictLoop fuel reg cfg dct context l1) (fun p1 =>
        exBind (fromdictLoop fuel reg cfg dct context l2) (fun p2 =>
          .ok (p1 ++ p2))) := by
  induction l1 with
  | nil =>
    simp only [List.nil_append, fromdictLoop, exBind_ok]
    cases fromdictLoop fuel reg cfg dct context l2 <;> simp [exBind]
  | cons a rest ih =>
    simp only [List.cons_append, fromdictLoop]
    cases resolveRaw cfg dct context (cfg.rename a.name) with
    | error e => simp [exBind]
    | ok val =>
      simp only [exBind_ok]
      cases maybeDeserialize fuel reg cfg val a context with
      | error e => simp [exBind]
      | ok v =>
        simp only [exBind_ok, ih, exBind_assoc]
        cases fromdictLoop fuel reg cfg dct context rest with
        | error e => simp [exBind]
        | ok p1 =>
          simp only [exBind_ok]
          cases fromdictLoop fuel reg cfg dct context l2 <;> simp [exBind]

/-! Concrete fixtures used by the witnesses and counterexamples. -/

/-- Example class `C` with two untyped fields `x`, `y` (the spec's §8
example class). -/
def regC : Registry := [("C", [⟨"x", Option.none⟩, ⟨"y", Option.none⟩])]

/-- Default `fromdict` keyword configuration: `recurse=True`,
`ignore_missing=False`, identity `rename`, default discriminator
`lambda v, t: Any`. -/
def cfgDefault : Config := ⟨true, false, id, fun _ _ => .ok Ty.anyT⟩

/-! Claim C9. -/

/-- C9: `has(candidate_class)` is true iff the class carries the
field-descriptor metadata slot — even when the field sequence it holds is
empty — and false for any non-declarative (unregistered) class.  `has` is a
total boolean function of the class, so it can neither raise nor have side
effects. -/
theorem attrs_c9_has (reg : Registry) (c : String) :
    (has reg c = true ↔ ∃ attrs, lookupClass reg c = some attrs) ∧
    (lookupClass reg c = some [] → has reg c = true) ∧
    (lookupClass reg c = Option.none → has reg c = false) := by
  refine ⟨?_, ?_, ?_⟩
  · simp [has, Option.isSome_iff_exists]
  · intro h; simp [has, h]
  · intro h; simp [has, h]

/-- Witness for C9: a registry holding an empty-attrs class `D`, probed for
`D` and for the unregistered `E`. -/
theorem attrs_c9_witness :
    has [("D", ([] : List Attr))] "D" = true ∧
    has [("D", ([] : List Attr))] "E" = false := by
  refine ⟨(attrs_c9_has [("D", [])] "D").2.1 ?_,
          (attrs_c9_has [("D", [])] "E").2.2 ?_⟩
  · simp [lookupClass]
  · simp [lookupClass]

/-! Claim C6. -/

theorem lookupField_setField_self (fs : List (String × Val)) (k : String)
    (v : Val) : lookupField (setField fs k v) k = some v := by
  induction fs with
  | nil => simp [setField, lookupField]
  | cons p rest ih =>
    obtain ⟨n, w⟩ := p
    simp only [setField]
    by_cases h : n = k
    · simp [if_pos h, lookupField]
    · simp only [if_neg h, lookupField, h, if_false]
      exact ih

theorem lookupField_setField_other (fs : List (String × Val)) (k n : String)
    (v : Val) (h : n ≠ k) :
    lookupField (setField fs k v) n = lookupField fs n := by
  have hkn : ¬(k = n) := fun hc => h hc.symm
  induction fs with
  | nil =>
    simp only [setField, lookupField]
    rw [if_neg hkn]
  | cons p rest ih =>
    obtain ⟨m, w⟩ := p
    simp only [setField]
    by_cases hm : m = k
    · subst hm
      simp only [if_pos rfl, lookupField]
      rw [if_neg hkn, if_neg hkn]
    · simp only [if_neg hm, lookupField]
      by_cases hn : m = n
      · simp [hn]
      · simp only [if_neg hn]
        exact ih

theorem assocLoop_all_known (cls : String) (attrs : List Attr) :
    ∀ (changes : List (String × Val)) (fs : List (String × Val)),
      (∀ p ∈ changes, attrs.any (fun a => a.name = p.1) = true) →
      (changes.map Prod.fst).Nodup →
      ∃ fs', assocLoop cls attrs fs changes = .ok (Val.inst cls fs') ∧
        (∀ n, n ∉ changes.map Prod.fst → lookupField fs' n = lookupField fs n) ∧
        (∀ k v, (k, v) ∈ changes → lookupField fs' k = some v) := by
  intro changes
  induction changes with
  | nil =>
    intro fs _ _
    exact ⟨fs, rfl, fun n _ => rfl, by simp⟩
  | cons p rest ih =>
    intro fs hall hnd
    obtain ⟨k, v⟩ := p
    have hk : attrs.any (fun a => a.name = k) = true :=
      hall (k, v) (List.mem_cons_self _ _)
    rw [List.map_cons] at hnd
    have hnd' := List.nodup_cons.mp hnd
    obtain ⟨fs', heq, hother, hchanged⟩ :=
      ih (setField fs k v) (fun q hq => hall q (List.mem_cons_of_mem _ hq)) hnd'.2
    refine ⟨fs', ?_, ?_, ?_⟩
    · simp only [assocLoop, hk, if_true]
      exact heq
    · intro n hn
      simp only [List.map_cons, List.mem_cons] at hn
      push_neg at hn
      rw [hother n hn.2, lookupField_setField_other _ _ _ _ hn.1]
    · intro k' v' hm
      rcases List.mem_cons.mp hm with h1 | h2
      · injection h1 with hk' hv'
        subst hk'
        subst hv'
        rw [hother k' hnd'.1, lookupField_setField_self]
      · exact hchanged k' v' h2

theorem assocLoop_unknown (cls : String) (attrs : List Attr) :
    ∀ (pre : List (String × Val)) (fs : List (String × Val)) (k : String)
      (v : Val) (post : List (String × Val)),
      (∀ p ∈ pre, attrs.any (fun a => a.name = p.1) = true) →
      attrs.any (fun a => a.name = k) = false →
      assocLoop cls attrs fs (pre ++ (k, v) :: post) =
        .error (.valueError (k ++ " is not an attrs attribute on " ++ cls ++ ".")) := by
  intro pre
  induction pre with
  | nil =>
    intro fs k v post _ hk
    simp [assocLoop, hk]
  | cons p rest ih =>
    intro fs k v post hall hk
    obtain ⟨n, w⟩ := p
    have hn : attrs.any (fun a => a.name = n) = true :=
      hall (n, w) (List.mem_cons_self _ _)
    simp only [List.cons_append, assocLoop, hn, if_true]
    exact ih (setField fs n w) k v post
      (fun q hq => hall q (List.mem_cons_of_mem _ hq)) hk

/-- C6: for an instance of a registered class, `assoc` fails with the
unknown-attribute `ValueError` naming the first change key that matches no
field descriptor (and the class); when every change names an existing
field, it returns a new instance with exactly those fields overwritten and
all other fields unchanged.  The model is pure, so the original instance
value is unchanged by construction. -/
theorem attrs_c6_assoc (reg : Registry) (cls : String)
    (fs : List (String × Val)) (attrs : List Attr)
    (changes : List (String × Val))
    (hreg : lookupClass reg cls = some attrs) :
    (∀ pre k v post, changes = pre ++ (k, v) :: post →
      (∀ p ∈ pre, attrs.any (fun a => a.name = p.1) = true) →
      attrs.any (fun a => a.name = k) = false →
      assoc reg (Val.inst cls fs) changes =
        .error (.valueError (k ++ " is not an attrs attribute on " ++ cls ++ "."))) ∧
    ((∀ p ∈ changes, attrs.any (fun a => a.name = p.1) = true) →
      (changes.map Prod.fst).Nodup →
      ∃ fs', assoc reg (Val.inst cls fs) changes = .ok (Val.inst cls fs') ∧
        (∀ n, n ∉ changes.map Prod.fst → lookupField fs' n = lookupField fs n) ∧
        (∀ k v, (k, v) ∈ changes → lookupField fs' k = some v)) := by
  constructor
  · intro pre k v post hch hpre hk
    subst hch
    simp only [assoc, hreg]
    exact assocLoop_unknown cls attrs pre fs k v post hpre hk
  · intro hall hnd
    simp only [assoc, hreg]
    exact assocLoop_all_known cls attrs changes fs hall hnd

/-- Witness for C6: `assoc(C(1, 2), zzzz=1)` fails naming `zzzz` and `C`;
`assoc(C(1, 2), x=5)` succeeds with `x` overwritten and `y` unchanged. -/
theorem attrs_c6_witness :
    assoc regC (Val.inst "C" [("x", .int 1), ("y", .int 2)]) [("zzzz", .int 1)] =
      .error (.valueError "zzzz is not an attrs attribute on C.") ∧
    ∃ fs', assoc regC (Val.inst "C" [("x", .int 1), ("y", .int 2)])
        [("x", .int 5)] = .ok (Val.inst "C" fs') ∧
      lookupField fs' "x" = some (.int 5) ∧
      lookupField fs' "y" = some (.int 2) := by
  have h1 := attrs_c6_assoc regC "C" [("x", .int 1), ("y", .int 2)]
    [⟨"x", Option.none⟩, ⟨"y", Option.none⟩] [("zzzz", .int 1)] (by rfl)
  have h2 := attrs_c6_assoc regC "C" [("x", .int 1), ("y", .int 2)]
    [⟨"x", Option.none⟩, ⟨"y", Option.none⟩] [("x", .int 5)] (by rfl)
  constructor
  · exact h1.1 [] "zzzz" (.int 1) [] rfl (by simp) (by simp)
  · obtain ⟨fs', heq, hother, hch⟩ := h2.2 (by simp) (by simp)
    refine ⟨fs', heq, hch "x" (.int 5) (by simp), ?_⟩
    rw [hother "y" (by simp)]
    simp [lookupField]

/-! Claim C1. -/

theorem nodup_append_head_not_left (l1 : List String) (n : String)
    (l2 : List String) (hnd : (l1 ++ n :: l2).Nodup) : n ∉ l1 := by
  rw [List.nodup_append] at hnd
  exact fun hmem => hnd.2.2 hmem (List.mem_cons_self _ _)

theorem getattr_aligned (cls : String) (fs1 fs2 : List (String × Val))
    (n : String) (v : Val)
    (hnd : ((fs1 ++ (n, v) :: fs2).map Prod.fst).Nodup) :
    getattr (Val.inst cls (fs1 ++ (n, v) :: fs2)) n = .ok v := by
  have hnl : n ∉ fs1.map Prod.fst :=
    nodup_append_head_not_left (fs1.map Prod.fst) n (fs2.map Prod.fst)
      (by simpa using hnd)
  simp only [getattr]
  rw [lookupField_append_absent _ _ _ hnl]
  simp [lookupField]

theorem asdictLoop_norecurse (fuel : Nat) (reg : Registry) (retain : Bool)
    (cls : String) :
    ∀ (attrs2 : List Attr) (fs1 fs2 : List (String × Val)),
      fs2.map Prod.fst = attrs2.map Attr.name →
      ((fs1 ++ fs2).map Prod.fst).Nodup →
      asdictLoop fuel reg false Option.none retain
        (Val.inst cls (fs1 ++ fs2)) attrs2 = .ok fs2 := by
  intro attrs2
  induction attrs2 with
  | nil =>
    intro fs1 fs2 halign _
    have h2 : fs2 = [] := by
      cases fs2 with
      | nil => rfl
      | cons p r => simp at halign
    subst h2
    simp [asdictLoop]
  | cons a rest ih =>
    intro fs1 fs2 halign hnd
    cases fs2 with
    | nil => simp at halign
    | cons p fs2' =>
      obtain ⟨n, v⟩ := p
      simp only [List.map_cons] at halign
      have hn : n = a.name := by exact (List.cons.injEq .. ▸ halign).1
      have htl : fs2'.map Prod.fst = rest.map Attr.name :=
        (List.cons.injEq .. ▸ halign).2
      subst hn
      have hget := getattr_aligned cls fs1 fs2' a.name v hnd
      simp only [asdictLoop, hget, exBind_ok, filtCheck, if_true]
      have hentry : asdictEntry fuel reg false Option.none retain v = .ok v := by
        simp [asdictEntry.eq_def]
      rw [hentry]
      simp only [exBind_ok]
      have := ih (fs1 ++ [(a.name, v)]) fs2' htl
        (by simpa [List.append_assoc] using hnd)
      rw [show fs1 ++ (a.name, v) :: fs2' = (fs1 ++ [(a.name, v)]) ++ fs2' by
        simp]
      rw [this]
      rfl

theorem asdict_norecurse (fuel : Nat) (reg : Registry) (retain : Bool)
    (cls : String) (attrs : List Attr) (fs : List (String × Val))
    (hreg : lookupClass reg cls = some attrs)
    (halign : fs.map Prod.fst = attrs.map Attr.name)
    (hnd : (fs.map Prod.fst).Nodup) :
    asdict (fuel + 1) reg false Option.none retain (Val.inst cls fs) =
      .ok (Val.dict (fs.map (fun p => (Val.str p.1, p.2)))) := by
  simp only [asdict, classOf, fieldsOf, hreg, exBind_ok]
  have := asdictLoop_norecurse fuel reg retain cls attrs [] fs halign
    (by simpa using hnd)
  try simp only [List.nil_append] at this
  rw [this]
  rfl

theorem any_key_aligned (fs1 fs2 : List (String × Val)) (n : String) (v : Val) :
    ((fs1 ++ (n, v) :: fs2).any (fun p => p.1 == n)) = true := by
  apply List.any_eq_true.mpr
  exact ⟨(n, v), by simp, by simp⟩

theorem fromdictLoop_norecurse (fuel : Nat) (reg : Registry) (cfg : Config)
    (context : List String)
    (hrec : cfg.recurse = false) (him : cfg.ignore_missing = false)
    (hren : cfg.rename = id) :
    ∀ (attrs2 : List Attr) (fs1 fs2 : List (String × Val)),
      fs2.map Prod.fst = attrs2.map Attr.name →
      ((fs1 ++ fs2).map Prod.fst).Nodup →
      fromdictLoop fuel reg cfg
        (Val.dict ((fs1 ++ fs2).map (fun p => (Val.str p.1, p.2)))) context
        attrs2 = .ok fs2 := by
  intro attrs2
  induction attrs2 with
  | nil =>
    intro fs1 fs2 halign _
    have h2 : fs2 = [] := by
      cases fs2 with
      | nil => rfl
      | cons p r => simp at halign
    subst h2
    simp [fromdictLoop]
  | cons a rest ih =>
    intro fs1 fs2 halign hnd
    cases fs2 with
    | nil => simp at halign
    | cons p fs2' =>
      obtain ⟨n, v⟩ := p
      simp only [List.map_cons] at halign
      have hn : n = a.name := by exact (List.cons.injEq .. ▸ halign).1
      have htl : fs2'.map Prod.fst = rest.map Attr.name :=
        (List.cons.injEq .. ▸ halign).2
      subst hn
      have hres : resolveRaw cfg
          (Val.dict ((fs1 ++ (a.name, v) :: fs2').map
            (fun p => (Val.str p.1, p.2)))) context (cfg.rename a.name) =
          .ok v := by
        have hnl : a.name ∉ fs1.map Prod.fst :=
          nodup_append_head_not_left (fs1.map Prod.fst) a.name
            (fs2'.map Prod.fst) (by simpa using hnd)
        simp only [resolveRaw, him, if_false, hren, id, pyContains_strmap,
          exBind_ok, any_key_aligned, if_true, pyIndex, lookupValKey_strmap]
        rw [lookupField_append_absent _ _ _ hnl]
        simp [lookupField]
      rw [fromdictLoop]
      rw [hres]
      simp only [exBind_ok]
      have hmd : maybeDeserialize fuel reg cfg v a context = .ok v := by
        simp [maybeDeserialize, hrec]
      rw [hmd]
      simp only [exBind_ok]
      have := ih (fs1 ++ [(a.name, v)]) fs2' htl
        (by simpa [List.append_assoc] using hnd)
      rw [show fs1 ++ (a.name, v) :: fs2' = (fs1 ++ [(a.name, v)]) ++ fs2' by
        simp]
      rw [this]
      rfl

/-- `fromdict` configuration with `recurse=False` and otherwise default
keywords. -/
def cfgNoRecurse : Config := ⟨false, false, id, fun _ _ => .ok Ty.anyT⟩

/-- C1: round-trip without recursion — for every instance of a registered
class whose stored fields align (in order, with no duplicate names) with
the class's field descriptors, `fromdict(type(x), asdict(x, recurse=False),
recurse=False)` (with the other keywords at their defaults) rebuilds a
value equal to `x`; and in particular `asdict(C(1, 2))` is
`{"x": 1, "y": 2}` and `fromdict(C, {"x": 1, "y": 2})` is `C(1, 2)` with
the default keywords. -/
theorem attrs_c1_roundtrip :
    (∀ (fuel1 fuel2 : Nat) (reg : Registry) (cfg : Config) (cls : String)
       (attrs : List Attr) (fs : List (String × Val)),
      lookupClass reg cls = some attrs →
      fs.map Prod.fst = attrs.map Attr.name →
      (fs.map Prod.fst).Nodup →
      cfg.recurse = false → cfg.ignore_missing = false → cfg.rename = id →
      ∃ d, asdict (fuel1 + 1) reg false Option.none false (Val.inst cls fs) =
          .ok d ∧
        fromdict (fuel2 + 1) reg cfg cls d = .ok (Val.inst cls fs)) ∧
    (asdict 2 regC true Option.none false
        (Val.inst "C" [("x", .int 1), ("y", .int 2)]) =
      .ok (Val.dict [(.str "x", .int 1), (.str "y", .int 2)]) ∧
     fromdict 2 regC cfgDefault "C"
        (Val.dict [(.str "x", .int 1), (.str "y", .int 2)]) =
      .ok (Val.inst "C" [("x", .int 1), ("y", .int 2)])) := by
  refine ⟨?_, ?_, ?_⟩
  · intro fuel1 fuel2 reg cfg cls attrs fs hreg halign hnd hrec him hren
    refine ⟨Val.dict (fs.map (fun p => (Val.str p.1, p.2))),
      asdict_norecurse fuel1 reg false cls attrs fs hreg halign hnd, ?_⟩
    simp only [fromdict, fromdictInner, fieldsOf, hreg, exBind_ok]
    have := fromdictLoop_norecurse fuel2 reg cfg [] hrec him hren attrs []
      fs halign (by simpa using hnd)
    try simp only [List.nil_append] at this
    rw [this]
    rfl
  · simp [asdict, asdictLoop, asdictEntry, regC, fieldsOf, lookupClass,
      classOf, getattr, has, lookupField, exBind, filtCheck]
  · simp [fromdict, fromdictInner, fromdictLoop, resolveRaw, maybeDeserialize,
      regC, cfgDefault, fieldsOf, lookupClass, pyContains, pyIndex,
      lookupValKey, Val.beq, dottedPath, exBind]

/-- Witness for C1 at the example class `C` and instance `C(1, 2)`. -/
theorem attrs_c1_witness :
    ∃ d, asdict 2 regC false Option.none false
        (Val.inst "C" [("x", .int 1), ("y", .int 2)]) = .ok d ∧
      fromdict 2 regC cfgNoRecurse "C" d =
        .ok (Val.inst "C" [("x", .int 1), ("y", .int 2)]) :=
  attrs_c1_roundtrip.1 1 1 regC cfgNoRecurse "C"
    [⟨"x", Option.none⟩, ⟨"y", Option.none⟩] [("x", .int 1), ("y", .int 2)]
    (by rfl) (by simp) (by simp) rfl rfl rfl

/-! Claim C3. -/

theorem fromdictInner_missing_key (fuel : Nat) (reg : Registry) (cfg : Config)
    (cls : String) (dct : Val) (context : List String)
    (attrs pre post : List Attr) (a : Attr) (acc : List (String × Val))
    (him : cfg.ignore_missing = false)
    (hreg : lookupClass reg cls = some attrs)
    (hsplit : attrs = pre ++ a :: post)
    (hpre : fromdictLoop fuel reg cfg dct context pre = .ok acc)
    (habs : pyContains dct (cfg.rename a.name) = .ok false) :
    fromdictInner (fuel + 1) reg cfg cls dct context =
      .error (.keyError (dottedPath context (cfg.rename a.name))) := by
  subst hsplit
  simp only [fromdictInner, fieldsOf, hreg, exBind_ok]
  rw [fromdictLoop_append, hpre]
  simp only [exBind_ok]
  rw [fromdictLoop]
  have hres : resolveRaw cfg dct context (cfg.rename a.name) =
      .error (.keyError (dottedPath context (cfg.rename a.name))) := by
    simp [resolveRaw, him, habs, exBind_ok]
  rw [hres]
  rfl

theorem fromdictLoop_ignore_missing_none (fuel : Nat) (reg : Registry)
    (cfg : Config) (kvs : List (Val × Val)) (context : List String) (a : Attr)
    (rest : List Attr) (tail : List (String × Val))
    (him : cfg.ignore_missing = true)
    (habs : lookupValKey kvs (cfg.rename a.name) = Option.none)
    (hty : cfg.recurse = false ∨ a.type = Option.none)
    (htail : fromdictLoop fuel reg cfg (Val.dict kvs) context rest = .ok tail) :
    fromdictLoop fuel reg cfg (Val.dict kvs) context (a :: rest) =
      .ok ((a.name, Val.none) :: tail) := by
  rw [fromdictLoop]
  have hres : resolveRaw cfg (Val.dict kvs) context (cfg.rename a.name) =
      .ok Val.none := by
    simp [resolveRaw, him, pyGet, habs]
  rw [hres]
  simp only [exBind_ok]
  have hmd : maybeDeserialize fuel reg cfg Val.none a context = .ok Val.none := by
    rcases hty with h | h <;>
      cases htype : a.type <;> simp_all [maybeDeserialize.eq_def]
  rw [hmd]
  simp only [exBind_ok]
  rw [htail]
  rfl

theorem exBind_no_keyErr {α β : Type} {x : Except PyErr α}
    {f : α → Except PyErr β}
    (hx : ∀ m, x ≠ .error (.keyError m))
    (hf : ∀ v m, f v ≠ .error (.keyError m)) :
    ∀ m, exBind x f ≠ .error (.keyError m) := by
  intro m h
  cases x with
  | error e =>
    rw [exBind_error] at h
    injection h with h'
    exact hx m (by rw [h'])
  | ok v =>
    rw [exBind_ok] at h
    exact hf v m h

theorem wrapTE_no_keyErr (a : Val) (typ : Ty) (context : List String)
    (key : String) (r : Except PyErr Val)
    (hr : ∀ m, r ≠ .error (.keyError m)) :
    ∀ m, wrapTE a typ context key r ≠ .error (.keyError m) := by
  intro m
  cases r with
  | error e => cases e <;> simp_all [wrapTE]
  | ok v => simp [wrapTE]

theorem pyItems_no_keyErr (a : Val) : ∀ m, pyItems a ≠ .error (.keyError m) := by
  cases a <;> simp [pyItems]

theorem iterElems_no_keyErr (a : Val) :
    ∀ m, iterElems a ≠ .error (.keyError m) := by
  cases a <;> simp [iterElems]

theorem pyGet_no_keyErr (dct : Val) (k : String) :
    ∀ m, pyGet dct k ≠ .error (.keyError m) := by
  cases dct <;> simp [pyGet]

theorem fieldsOf_no_keyErr (reg : Registry) (c : String) :
    ∀ m, fieldsOf reg c ≠ .error (.keyError m) := by
  cases h : lookupClass reg c <;> simp [fieldsOf, h]

/-- Optional dispatch on a non-`None` value with more than two union
parameters (lines 114-121): re-dispatch on the union of the non-`None`
parameters. -/
theorem deserializeValBody_unionT_opt_many (f : Nat) (reg : Registry)
    (cfg : Config) (a : Val) (ps : List Ty) (name : String)
    (context : List String) (key : String)
    (hopt : ps.any (fun t => Ty.beq t .noneT) = true) (hne : a ≠ Val.none)
    (hlen : ps.length > 2) :
    deserializeValBody f reg cfg a (.unionT ps) name context key =
      deserializeVal f reg cfg a
        (mkUnion (ps.filter (fun t => !(Ty.beq t .noneT)))) name context key := by
  cases a
  case none => exact absurd rfl hne
  all_goals
    rw [deserializeValBody.eq_def]
    simp [hopt, hlen]

/-- Optional dispatch on a non-`None` value with at most two union
parameters (lines 122-123): re-dispatch on the first union parameter. -/
theorem deserializeValBody_unionT_opt_two (f : Nat) (reg : Registry)
    (cfg : Config) (a : Val) (ps : List Ty) (p : Ty) (rest' : List Ty)
    (name : String) (context : List String) (key : String)
    (hopt : ps.any (fun t => Ty.beq t .noneT) = true) (hne : a ≠ Val.none)
    (hlen : ¬ps.length > 2) (hps : ps = p :: rest') :
    deserializeValBody f reg cfg a (.unionT ps) name context key =
      deserializeVal f reg cfg a p name context key := by
  subst hps
  cases a
  case none => exact absurd rfl hne
  all_goals
    rw [deserializeValBody.eq_def]
    simp [hopt, hlen]
    intro hc
    simp only [List.length_cons] at hlen
    omega

/-- Optional dispatch on the `None` sentinel (lines 112-113). -/
theorem deserializeValBody_unionT_none (f : Nat) (reg : Registry)
    (cfg : Config) (ps : List Ty) (name : String) (context : List String)
    (key : String) (hopt : ps.any (fun t => Ty.beq t .noneT) = true) :
    deserializeValBody f reg cfg Val.none (.unionT ps) name context key =
      .ok Val.none := by
  simp [deserializeValBody, hopt]

/-- Bare-union dispatch (lines 146-148): the discriminator picks the
concrete type; its exceptions enter the surrounding `try` block. -/
theorem deserializeValBody_unionT_disc (f : Nat) (reg : Registry)
    (cfg : Config) (a : Val) (ps : List Ty) (name : String)
    (context : List String) (key : String)
    (hopt : ps.any (fun t => Ty.beq t .noneT) = false) :
    deserializeValBody f reg cfg a (.unionT ps) name context key =
      exBind (cfg.union_discriminator a (.unionT ps)) (fun actual =>
        deserializeVal f reg cfg a actual name context key) := by
  cases a <;> (rw [deserializeValBody.eq_def]; simp [hopt])

/-- Under `ignore_missing` — and a `union_discriminator` that never raises a
`KeyError` of its own — neither `deserialize_val` nor `_fromdict` can
produce a `KeyError`: the only `KeyError` in the module is the missing-key
raise, which `ignore_missing` disables. -/
theorem fromdict_no_keyErr (cfg : Config)
    (him : cfg.ignore_missing = true)
    (hdisc : ∀ v t m, cfg.union_discriminator v t ≠ .error (.keyError m)) :
    ∀ fuel,
      (∀ reg a typ name context key m,
        deserializeVal fuel reg cfg a typ name context key ≠
          .error (.keyError m)) ∧
      (∀ reg cls dct context m,
        fromdictInner fuel reg cfg cls dct context ≠
          .error (.keyError m)) := by
  intro fuel
  induction fuel with
  | zero =>
    constructor
    · intro reg a typ name context key m
      simp [deserializeVal]
    · intro reg cls dct context m
      simp [fromdictInner]
  | succ f ih =>
    have hval := ih.1
    have hinner := ih.2
    have hitems : ∀ reg xs gen name context key m,
        deserItems f reg cfg xs gen name context key ≠
          .error (.keyError m) := by
      intro reg xs
      induction xs with
      | nil => intro gen name context key m; simp [deserItems]
      | cons v rest ihx =>
        intro gen name context key m
        rw [deserItems]
        exact exBind_no_keyErr (hval reg v gen name context key)
          (fun v' => exBind_no_keyErr (ihx gen name context key)
            (fun rest' m' => by simp)) m
    have hpairs : ∀ reg kvs kg vg name context key m,
        deserDictPairs f reg cfg kvs kg vg name context key ≠
          .error (.keyError m) := by
      intro reg kvs
      induction kvs with
      | nil => intro kg vg name context key m; simp [deserDictPairs]
      | cons p rest ihp =>
        obtain ⟨k, v⟩ := p
        intro kg vg name context key m
        rw [deserDictPairs]
        exact exBind_no_keyErr (hval reg k kg name context key)
          (fun k' => exBind_no_keyErr
            (hval reg v vg (name ++ pyStr k) context key)
            (fun v' => exBind_no_keyErr (ihp kg vg name context key)
              (fun rest' m' => by simp))) m
    have hcont : ∀ reg a mk param name context key m,
        deserContainer f reg cfg a mk param name context key ≠
          .error (.keyError m) := by
      intro reg a mk param name context key m
      cases param with
      | some gen =>
        rw [deserContainer]
        exact exBind_no_keyErr (iterElems_no_keyErr a)
          (fun elems => exBind_no_keyErr
            (hitems reg elems gen (name ++ "[]") context key)
            (fun ys m' => by simp)) m
      | none =>
        rw [deserContainer]
        exact exBind_no_keyErr (iterElems_no_keyErr a)
          (fun elems m' => by simp) m
    have hbody : ∀ reg a typ name context key m,
        deserializeValBody f reg cfg a typ name context key ≠
          .error (.keyError m) := by
      intro reg a typ name context key m
      cases typ with
      | clsT c =>
        rw [deserializeValBody]
        by_cases hc : has reg c = true
        · simp only [hc, if_true]
          exact hinner reg c a (context ++ [name]) m
        · simp only [Bool.not_eq_true] at hc
          simp [hc]
      | unionT ps =>
        by_cases hopt : ps.any (fun t => Ty.beq t .noneT) = true
        · by_cases han : a = Val.none
          · subst han
            rw [deserializeValBody_unionT_none f reg cfg ps name context key hopt]
            simp
          · by_cases hlen : ps.length > 2
            · rw [deserializeValBody_unionT_opt_many f reg cfg a ps name
                context key hopt han hlen]
              exact hval reg _ _ name context key m
            · cases hps : ps with
              | nil =>
                rw [hps] at hopt
                simp at hopt
              | cons p prest =>
                rw [hps] at hopt hlen
                rw [deserializeValBody_unionT_opt_two f reg cfg a
                  (p :: prest) p prest name context key hopt han hlen rfl]
                exact hval reg _ p name context key m
        · simp only [Bool.not_eq_true] at hopt
          rw [deserializeValBody_unionT_disc f reg cfg a ps name context key
            hopt]
          exact exBind_no_keyErr (hdisc a (.unionT ps))
            (fun actual => hval reg a actual name context key) m
      | dictT param =>
        cases param with
        | some kv =>
          obtain ⟨kg, vg⟩ := kv
          rw [deserializeValBody]
          exact exBind_no_keyErr (pyItems_no_keyErr a)
            (fun kvs => exBind_no_keyErr
              (hpairs reg kvs kg vg name context key)
              (fun kvs' m' => by simp)) m
        | none => simp [deserializeValBody]
      | listT param =>
        rw [deserializeValBody]
        exact hcont reg a Val.list param name context key m
      | setT param =>
        rw [deserializeValBody]
        exact hcont reg a Val.set param name context key m
      | tupleT param =>
        rw [deserializeValBody]
        exact hcont reg a Val.tuple param name context key m
      | strT => simp [deserializeValBody]
      | noneT => simp [deserializeValBody]
      | anyT => simp [deserializeValBody]
      | intT => simp [deserializeValBody]
    have hmd : ∀ reg val a context m,
        maybeDeserialize f reg cfg val a context ≠ .error (.keyError m) := by
      intro reg val a context m
      cases hrec : cfg.recurse <;> cases htype : a.type <;>
        simp_all [maybeDeserialize.eq_def]
    have hloop : ∀ reg dct context attrs m,
        fromdictLoop f reg cfg dct context attrs ≠ .error (.keyError m) := by
      intro reg dct context attrs
      induction attrs with
      | nil => intro m; simp [fromdictLoop]
      | cons a rest ihl =>
        intro m
        rw [fromdictLoop]
        have hres : ∀ m', resolveRaw cfg dct context (cfg.rename a.name) ≠
            .error (.keyError m') := by
          intro m'
          simp only [resolveRaw, him, if_true]
          exact pyGet_no_keyErr dct (cfg.rename a.name) m'
        exact exBind_no_keyErr hres
          (fun val => exBind_no_keyErr (hmd reg val a context)
            (fun v => exBind_no_keyErr ihl (fun tail m' => by simp))) m
    constructor
    · intro reg a typ name context key m
      rw [deserializeVal]
      exact wrapTE_no_keyErr a typ context key _
        (hbody reg a typ name context key) m
    · intro reg cls dct context m
      rw [fromdictInner]
      exact exBind_no_keyErr (fieldsOf_no_keyErr reg cls)
        (fun attrs => exBind_no_keyErr (hloop reg dct context attrs)
          (fun cons m' => by simp)) m

/-- C3: with `ignore_missing=False`, a field whose renamed key is absent
from the source dict (the earlier fields having been processed without
error) makes `fromdict` fail with the missing-key `KeyError` carrying the
dotted path of the key in the current context; with `ignore_missing=True`
the absent key resolves to the `None` sentinel — stored as the field value
whenever no type dispatch applies to it — and no `KeyError` is ever
raised (given a discriminator that raises no `KeyError` of its own). -/
theorem attrs_c3_missing_key :
    (∀ (fuel : Nat) (reg : Registry) (cfg : Config) (cls : String)
       (dct : Val) (context : List String) (attrs pre post : List Attr)
       (a : Attr) (acc : List (String × Val)),
      cfg.ignore_missing = false →
      lookupClass reg cls = some attrs →
      attrs = pre ++ a :: post →
      fromdictLoop fuel reg cfg dct context pre = .ok acc →
      pyContains dct (cfg.rename a.name) = .ok false →
      fromdictInner (fuel + 1) reg cfg cls dct context =
        .error (.keyError (dottedPath context (cfg.rename a.name)))) ∧
    (∀ (fuel : Nat) (reg : Registry) (cfg : Config)
       (kvs : List (Val × Val)) (context : List String) (a : Attr)
       (rest : List Attr) (tail : List (String × Val)),
      cfg.ignore_missing = true →
      lookupValKey kvs (cfg.rename a.name) = Option.none →
      (cfg.recurse = false ∨ a.type = Option.none) →
      fromdictLoop fuel reg cfg (Val.dict kvs) context rest = .ok tail →
      fromdictLoop fuel reg cfg (Val.dict kvs) context (a :: rest) =
        .ok ((a.name, Val.none) :: tail)) ∧
    (∀ (cfg : Config), cfg.ignore_missing = true →
      (∀ v t m, cfg.union_discriminator v t ≠ .error (.keyError m)) →
      ∀ fuel reg cls dct context m,
        fromdictInner fuel reg cfg cls dct context ≠
          .error (.keyError m)) := by
  refine ⟨?_, ?_, ?_⟩
  · intro fuel reg cfg cls dct context attrs pre post a acc him hreg hsplit
      hpre habs
    exact fromdictInner_missing_key fuel reg cfg cls dct context attrs pre
      post a acc him hreg hsplit hpre habs
  · intro fuel reg cfg kvs context a rest tail him habs hty htail
    exact fromdictLoop_ignore_missing_none fuel reg cfg kvs context a rest
      tail him habs hty htail
  · intro cfg him hdisc fuel reg cls dct context m
    exact (fromdict_no_keyErr cfg him hdisc fuel).2 reg cls dct context m

/-- `fromdict` configuration with `ignore_missing=True` and otherwise
default keywords. -/
def cfgIgnoreMissing : Config := ⟨true, true, id, fun _ _ => .ok Ty.anyT⟩

/-- Witness for C3: `fromdict(C, \x7b"x": 1\x7d)` fails with the
missing-key error `.y`; with `ignore_missing=True` the same call succeeds
with `y = None`. -/
theorem attrs_c3_witness :
    fromdictInner 2 regC cfgDefault "C" (Val.dict [(.str "x", .int 1)]) [] =
      .error (.keyError ".y") ∧
    fromdictLoop 1 regC cfgIgnoreMissing (Val.dict [(.str "x", .int 1)]) []
      [⟨"y", Option.none⟩] = .ok [("y", Val.none)] := by
  constructor
  · have h := attrs_c3_missing_key.1 1 regC cfgDefault "C"
      (Val.dict [(.str "x", .int 1)]) [] _ [⟨"x", Option.none⟩] []
      ⟨"y", Option.none⟩ [("x", .int 1)] rfl rfl rfl
      (by simp [fromdictLoop, resolveRaw, cfgDefault, pyContains, Val.beq,
        exBind, pyIndex, lookupValKey, maybeDeserialize])
      (by simp [pyContains, cfgDefault, Val.beq])
    simpa [dottedPath, cfgDefault] using h
  · have h := attrs_c3_missing_key.2.1 1 regC cfgIgnoreMissing
      [(Val.str "x", Val.int 1)] [] ⟨"y", Option.none⟩ [] [] rfl
      (by simp [lookupValKey, cfgIgnoreMissing, Val.beq]) (Or.inr rfl)
      (by simp [fromdictLoop])
    exact h

/-! Claim C4. -/

/-- Example class `D` with one field `d` declared `Dict[str, int]`. -/
def regD : Registry :=
  [("D", [⟨"d", some (Ty.dictT (some (.strT, .intT)))⟩])]

/-- C4 counterexample: dispatching the `Dict[str, int]`-typed field `d`
against the integer `7` calls `7.items()` and the resulting
`AttributeError` — a type-coercion failure that is not a `TypeError` —
escapes `fromdict` unmodified instead of being re-raised as a type-mismatch
error, so not every kind of coercion failure is wrapped. -/
theorem attrs_c4_counterexample :
    fromdict 3 regD cfgDefault "D" (Val.dict [(.str "d", .int 7)]) =
      .error (.attributeError "'int' object has no attribute 'items'") := by
  simp [fromdict, fromdictInner, fromdictLoop, resolveRaw, maybeDeserialize,
    regD, cfgDefault, fieldsOf, lookupClass, pyContains, pyIndex,
    lookupValKey, Val.beq, exBind, deserializeVal, wrapTE,
    deserializeValBody, pyItems, classOf, has]

/-- C4 (amended): every `TypeError` leaving `deserialize_val` is the
formatted type-mismatch message carrying the offending value, the declared
type, the dotted context path ending at the enclosing field's lookup key,
and an underlying reason; a dispatch failure of any other exception kind
leaves `deserialize_val` unmodified. -/
theorem attrs_c4_wrap (fuel : Nat) (reg : Registry) (cfg : Config) (a : Val)
    (typ : Ty) (name : String) (context : List String) (key m : String) :
    (deserializeVal fuel reg cfg a typ name context key =
        .error (.typeError m) →
      ∃ r, m = unableMsg a typ context key r) ∧
    (∀ e, deserializeValBody fuel reg cfg a typ name context key = .error e →
      (∀ m', e ≠ .typeError m') →
      deserializeVal (fuel + 1) reg cfg a typ name context key = .error e) := by
  constructor
  · intro h
    cases fuel with
    | zero => simp [deserializeVal] at h
    | succ f =>
      rw [deserializeVal] at h
      cases hb : deserializeValBody f reg cfg a typ name context key with
      | ok v => rw [hb] at h; simp [wrapTE] at h
      | error e =>
        rw [hb] at h
        cases e <;> simp [wrapTE] at h
        exact ⟨_, h.symm⟩
  · intro e hb hne
    rw [deserializeVal, hb]
    cases e <;> simp [wrapTE]
    exact absurd rfl (hne _)

/-- Witness for C4: a `TypeError` from coercing `None` to a `tuple` comes
out formatted; the `AttributeError` from `7.items()` passes through the
wrapper unmodified. -/
theorem attrs_c4_witness :
    (∃ r, ("Unable to deserialize None as tuple at .x because " ++
        "'NoneType' object is not iterable") =
      unableMsg Val.none (.tupleT Option.none) [] "x" r) ∧
    deserializeVal 2 [] cfgDefault (.int 7) (.dictT (some (.strT, .intT)))
        "d" [] "d" =
      .error (.attributeError "'int' object has no attribute 'items'") := by
  constructor
  · exact (attrs_c4_wrap 2 [] cfgDefault Val.none (.tupleT Option.none) "x"
      [] "x" _).1
      (by simp only [deserializeVal, wrapTE, deserializeValBody,
        deserContainer, iterElems, exBind, unableMsg, dottedPath, pyStr,
        tyStr, classOf, Except.error.injEq, PyErr.typeError.injEq]
          decide)
  · exact (attrs_c4_wrap 1 [] cfgDefault (.int 7)
      (.dictT (some (.strT, .intT))) "d" [] "d" "").2 _
      (by simp [deserializeValBody, pyItems, exBind, classOf])
      (by simp)

/-! Claim C5. -/

/-- Classes `B` (one untyped field) and `E` (one field typed
`Union[B, C]`). -/
def regE : Registry :=
  [("B", [⟨"x", Option.none⟩]),
   ("E", [⟨"u", some (Ty.unionT [.clsT "B", .clsT "C"])⟩])]

/-- `fromdict` configuration whose `union_discriminator` raises
`TypeError("boom")`. -/
def cfgBoom : Config := ⟨true, false, id, fun _ _ => .error (.typeError "boom")⟩

/-- C5 counterexample: a `TypeError` raised by the `union_discriminator`
callback is caught by the dispatch's `except TypeError` and re-raised
wrapped as the formatted type-mismatch error — it does not propagate
unmodified. -/
theorem attrs_c5_counterexample :
    fromdict 3 regE cfgBoom "E" (Val.dict [(.str "u", .int 0)]) =
      .error (.typeError
        (unableMsg (.int 0) (.unionT [.clsT "B", .clsT "C"]) [] "u" "boom")) ∧
    Except.error (PyErr.typeError
        (unableMsg (.int 0) (.unionT [.clsT "B", .clsT "C"]) [] "u" "boom")) ≠
      (Except.error (PyErr.typeError "boom") : Except PyErr Val) := by
  constructor
  · simp [fromdict, fromdictInner, fromdictLoop, resolveRaw, maybeDeserialize,
      regE, cfgBoom, fieldsOf, lookupClass, pyContains, pyIndex, lookupValKey,
      Val.beq, exBind, deserializeVal, wrapTE, deserializeValBody, Ty.beq,
      classOf, has]
  · simp only [unableMsg, pyStr, tyStr, tyStrList, dottedPath, ne_eq,
      Except.error.injEq, PyErr.typeError.injEq]
    decide

/-- C5 (amended): exceptions raised by the `filter` callback propagate out
of `asdict` unmodified; exceptions raised by `union_discriminator`
propagate out of the dispatch unmodified unless they are `TypeError`s,
which the surrounding `except TypeError` catches and re-raises as the
formatted type-mismatch error. -/
theorem attrs_c5_callbacks :
    (∀ (fuel : Nat) (reg : Registry) (recurse retain : Bool) (cls : String)
       (fs : List (String × Val)) (f : Attr → Val → Except PyErr Bool)
       (a : Attr) (rest : List Attr) (v : Val) (e : PyErr),
      lookupClass reg cls = some (a :: rest) →
      getattr (Val.inst cls fs) a.name = .ok v →
      f a v = .error e →
      asdict (fuel + 1) reg recurse (some f) retain (Val.inst cls fs) =
        .error e) ∧
    (∀ (fuel : Nat) (reg : Registry) (cfg : Config) (a : Val) (ps : List Ty)
       (name : String) (context : List String) (key : String) (e : PyErr),
      ps.any (fun t => Ty.beq t .noneT) = false →
      cfg.union_discriminator a (.unionT ps) = .error e →
      (∀ m, e ≠ .typeError m) →
      deserializeVal (fuel + 1) reg cfg a (.unionT ps) name context key =
        .error e) ∧
    (∀ (fuel : Nat) (reg : Registry) (cfg : Config) (a : Val) (ps : List Ty)
       (name : String) (context : List String) (key m : String),
      ps.any (fun t => Ty.beq t .noneT) = false →
      cfg.union_discriminator a (.unionT ps) = .error (.typeError m) →
      deserializeVal (fuel + 1) reg cfg a (.unionT ps) name context key =
        .error (.typeError (unableMsg a (.unionT ps) context key m))) := by
  refine ⟨?_, ?_, ?_⟩
  · intro fuel reg recurse retain cls fs f a rest v e hreg hget hf
    have hcls : classOf (Val.inst cls fs) = cls := rfl
    simp only [asdict, hcls, fieldsOf, hreg, exBind_ok, asdictLoop, hget,
      filtCheck, hf, exBind_error]
  · intro fuel reg cfg a ps name context key e hopt hd hne
    rw [deserializeVal,
      deserializeValBody_unionT_disc fuel reg cfg a ps name context key hopt,
      hd, exBind_error]
    cases e <;> simp [wrapTE]
    exact absurd rfl (hne _)
  · intro fuel reg cfg a ps name context key m hopt hd
    rw [deserializeVal,
      deserializeValBody_unionT_disc fuel reg cfg a ps name context key hopt,
      hd, exBind_error]
    rfl

/-- `fromdict` configuration whose `union_discriminator` raises
`KeyError("k")`. -/
def cfgKeyBoom : Config := ⟨true, false, id, fun _ _ => .error (.keyError "k")⟩

/-- Witness for C5: a `ValueError` from the filter escapes `asdict` as is;
a `KeyError` from the discriminator escapes the dispatch as is; a
`TypeError` from the discriminator comes out wrapped. -/
theorem attrs_c5_witness :
    asdict 1 regC true (some (fun _ _ => .error (.valueError "fboom"))) false
        (Val.inst "C" [("x", .int 1), ("y", .int 2)]) =
      .error (.valueError "fboom") ∧
    deserializeVal 1 [] cfgKeyBoom (.int 0) (.unionT [.intT, .strT]) "u" []
        "u" = .error (.keyError "k") ∧
    deserializeVal 1 [] cfgBoom (.int 0) (.unionT [.intT, .strT]) "u" [] "u" =
      .error (.typeError
        (unableMsg (.int 0) (.unionT [.intT, .strT]) [] "u" "boom")) := by
  refine ⟨?_, ?_, ?_⟩
  · exact attrs_c5_callbacks.1 0 regC true false "C"
      [("x", .int 1), ("y", .int 2)] _ ⟨"x", Option.none⟩
      [⟨"y", Option.none⟩] (.int 1) _ rfl (by simp [getattr, lookupField]) rfl
  · exact attrs_c5_callbacks.2.1 0 [] cfgKeyBoom (.int 0) [.intT, .strT] "u"
      [] "u" _ (by simp [Ty.beq]) rfl (by simp)
  · exact attrs_c5_callbacks.2.2 0 [] cfgBoom (.int 0) [.intT, .strT] "u" []
      "u" "boom" (by simp [Ty.beq]) rfl

/-! Claim C7. -/

/-- Classes `C` (untyped fields `x`, `y`) and `F` (one field typed
`Union[None, C]`, an optional wrapper spelled with the none type first). -/
def regF : Registry :=
  [("C", [⟨"x", Option.none⟩, ⟨"y", Option.none⟩]),
   ("F", [⟨"o", some (Ty.unionT [.noneT, .clsT "C"])⟩])]

/-- C7 counterexample: for the field `o : Union[None, C]` — an optional-of-C
in which the none type is written first — a concrete source mapping is NOT
deserialized as `C`: the two-parameter optional branch collapses to
`__union_params__[0]`, here the `NoneType`, which passes the raw dict
through unchanged instead of constructing a `C` instance. -/
theorem attrs_c7_counterexample :
    fromdict 4 regF cfgDefault "F"
        (Val.dict [(.str "o",
          Val.dict [(.str "x", .int 1), (.str "y", .int 2)])]) =
      .ok (Val.inst "F"
        [("o", Val.dict [(.str "x", .int 1), (.str "y", .int 2)])]) ∧
    Val.dict [(.str "x", .int 1), (.str "y", .int 2)] ≠
      Val.inst "C" [("x", .int 1), ("y", .int 2)] := by
  constructor
  · simp [fromdict, fromdictInner, fromdictLoop, resolveRaw, maybeDeserialize,
      regF, cfgDefault, fieldsOf, lookupClass, pyContains, pyIndex,
      lookupValKey, Val.beq, exBind, deserializeVal, wrapTE,
      deserializeValBody, Ty.beq, classOf, has]
  · simp

/-- C7 (amended): a field declared as an optional wrapper yields `None` for
the `None` sentinel; for a concrete (non-none) value, with more than two
union parameters it re-dispatches on the union of the non-`None`
parameters, and with exactly two it re-dispatches on the FIRST union
parameter — which is the remaining non-`None` alternative exactly when the
none type is written second (the canonical `Optional[X]` spelling), but is
the `NoneType` itself, an opaque passthrough, when the none type is written
first. -/
theorem attrs_c7_optional (fuel : Nat) (reg : Registry) (cfg : Config)
    (a : Val) (ps : List Ty) (p : Ty) (rest' : List Ty) (name : String)
    (context : List String) (key : String)
    (hopt : ps.any (fun t => Ty.beq t .noneT) = true) :
    (deserializeVal (fuel + 1) reg cfg Val.none (.unionT ps) name context
        key = .ok Val.none) ∧
    (a ≠ Val.none → ps.length > 2 →
      deserializeVal (fuel + 1) reg cfg a (.unionT ps) name context key =
        wrapTE a (.unionT ps) context key
          (deserializeVal fuel reg cfg a
            (mkUnion (ps.filter (fun t => !(Ty.beq t .noneT)))) name context
            key)) ∧
    (a ≠ Val.none → ¬ps.length > 2 → ps = p :: rest' →
      deserializeVal (fuel + 1) reg cfg a (.unionT ps) name context key =
        wrapTE a (.unionT ps) context key
          (deserializeVal fuel reg cfg a p name context key)) := by
  refine ⟨?_, ?_, ?_⟩
  · rw [deserializeVal,
      deserializeValBody_unionT_none fuel reg cfg ps name context key hopt]
    rfl
  · intro hne hlen
    rw [deserializeVal, deserializeValBody_unionT_opt_many fuel reg cfg a ps
      name context key hopt hne hlen]
  · intro hne hlen hps
    rw [deserializeVal, deserializeValBody_unionT_opt_two fuel reg cfg a ps p
      rest' name context key hopt hne hlen hps]

/-- Witness for C7 at the canonical spelling `Optional[int] =
Union[int, None]`: `None` yields `None`, and a concrete `5` re-dispatches
on the first parameter `int`. -/
theorem attrs_c7_witness :
    deserializeVal 2 [] cfgDefault Val.none (.unionT [.intT, .noneT]) "x" []
        "x" = .ok Val.none ∧
    deserializeVal 2 [] cfgDefault (.int 5) (.unionT [.intT, .noneT]) "x" []
        "x" =
      wrapTE (.int 5) (.unionT [.intT, .noneT]) [] "x"
        (deserializeVal 1 [] cfgDefault (.int 5) .intT "x" [] "x") := by
  have h := attrs_c7_optional 1 [] cfgDefault (.int 5) [.intT, .noneT] .intT
    [.noneT] "x" [] "x" (by simp [Ty.beq])
  exact ⟨h.1, h.2.2 (by simp) (by simp) rfl⟩

/-! Claim C8. -/

theorem asdictEntry_tuple (fuel : Nat) (reg : Registry)
    (filt : Option (Attr → Val → Except PyErr Bool)) (retain : Bool)
    (xs ys : List Val) (hreg : lookupClass reg "tuple" = Option.none)
    (hitems : asdictItems fuel reg filt xs = .ok ys) :
    asdictEntry fuel reg true filt retain (.tuple xs) =
      .ok (if retain then Val.tuple ys else Val.list ys) := by
  simp [asdictEntry, has, classOf, hreg, hitems, exBind]

theorem asdictEntry_set (fuel : Nat) (reg : Registry)
    (filt : Option (Attr → Val → Except PyErr Bool)) (retain : Bool)
    (xs ys : List Val) (hreg : lookupClass reg "set" = Option.none)
    (hitems : asdictItems fuel reg filt xs = .ok ys) :
    asdictEntry fuel reg true filt retain (.set xs) =
      .ok (if retain then Val.set ys else Val.list ys) := by
  simp [asdictEntry, has, classOf, hreg, hitems, exBind]

theorem asdict_field_entry (fuel : Nat) (reg : Registry) (retain : Bool)
    (cls : String) (fs : List (String × Val)) (attrs pre post : List Attr)
    (a : Attr) (v w : Val) (acc tail : List (String × Val))
    (hreg : lookupClass reg cls = some attrs)
    (hsplit : attrs = pre ++ a :: post)
    (hget : getattr (Val.inst cls fs) a.name = .ok v)
    (hentry : asdictEntry fuel reg true Option.none retain v = .ok w)
    (hpre : asdictLoop fuel reg true Option.none retain (Val.inst cls fs)
      pre = .ok acc)
    (hpost : asdictLoop fuel reg true Option.none retain (Val.inst cls fs)
      post = .ok tail) :
    asdict (fuel + 1) reg true Option.none retain (Val.inst cls fs) =
      .ok (Val.dict ((acc ++ (a.name, w) :: tail).map
        (fun p => (Val.str p.1, p.2)))) := by
  subst hsplit
  have hcls : classOf (Val.inst cls fs) = cls := rfl
  simp only [asdict, hcls, fieldsOf, hreg, exBind_ok]
  rw [asdictLoop_append, hpre]
  simp only [exBind_ok]
  rw [asdictLoop, hget]
  simp only [exBind_ok, filtCheck, if_true]
  rw [hentry]
  simp only [exBind_ok]
  rw [hpost]
  rfl

/-- C8: for an instance field holding a tuple (resp. set), recursive
`asdict` with `retain_collection_types=True` stores a container of the same
runtime type (tuple stays tuple, set stays set) holding the converted
elements, and with the flag off it stores a generic `list` instead,
regardless of the original container type. -/
theorem attrs_c8_retain :
    (∀ (fuel : Nat) (reg : Registry) (retain : Bool) (cls : String)
       (fs : List (String × Val)) (attrs pre post : List Attr) (a : Attr)
       (xs ys : List Val) (acc tail : List (String × Val)),
      lookupClass reg cls = some attrs →
      attrs = pre ++ a :: post →
      getattr (Val.inst cls fs) a.name = .ok (.tuple xs) →
      lookupClass reg "tuple" = Option.none →
      asdictItems fuel reg Option.none xs = .ok ys →
      asdictLoop fuel reg true Option.none retain (Val.inst cls fs) pre =
        .ok acc →
      asdictLoop fuel reg true Option.none retain (Val.inst cls fs) post =
        .ok tail →
      asdict (fuel + 1) reg true Option.none retain (Val.inst cls fs) =
        .ok (Val.dict ((acc ++
          (a.name, if retain then Val.tuple ys else Val.list ys) :: tail).map
            (fun p => (Val.str p.1, p.2))))) ∧
    (∀ (fuel : Nat) (reg : Registry) (retain : Bool) (cls : String)
       (fs : List (String × Val)) (attrs pre post : List Attr) (a : Attr)
       (xs ys : List Val) (acc tail : List (String × Val)),
      lookupClass reg cls = some attrs →
      attrs = pre ++ a :: post →
      getattr (Val.inst cls fs) a.name = .ok (.set xs) →
      lookupClass reg "set" = Option.none →
      asdictItems fuel reg Option.none xs = .ok ys →
      asdictLoop fuel reg true Option.none retain (Val.inst cls fs) pre =
        .ok acc →
      asdictLoop fuel reg true Option.none retain (Val.inst cls fs) post =
        .ok tail →
      asdict (fuel + 1) reg true Option.none retain (Val.inst cls fs) =
        .ok (Val.dict ((acc ++
          (a.name, if retain then Val.set ys else Val.list ys) :: tail).map
            (fun p => (Val.str p.1, p.2))))) := by
  constructor
  · intro fuel reg retain cls fs attrs pre post a xs ys acc tail hreg hsplit
      hget hnotuple hitems hpre hpost
    exact asdict_field_entry fuel reg retain cls fs attrs pre post a
      (.tuple xs) _ acc tail hreg hsplit hget
      (asdictEntry_tuple fuel reg Option.none retain xs ys hnotuple hitems)
      hpre hpost
  · intro fuel reg retain cls fs attrs pre post a xs ys acc tail hreg hsplit
      hget hnoset hitems hpre hpost
    exact asdict_field_entry fuel reg retain cls fs attrs pre post a
      (.set xs) _ acc tail hreg hsplit hget
      (asdictEntry_set fuel reg Option.none retain xs ys hnoset hitems)
      hpre hpost

/-- Example class `T` with one untyped field `t`. -/
def regT : Registry := [("T", [⟨"t", Option.none⟩])]

/-- Witness for C8: a `T` instance whose field holds the tuple `(2, "a")`
keeps a tuple under `retain_collection_types=True` and becomes a list with
the flag off. -/
theorem attrs_c8_witness :
    asdict 2 regT true Option.none true
        (Val.inst "T" [("t", Val.tuple [.int 2, .str "a"])]) =
      .ok (Val.dict [(.str "t", Val.tuple [.int 2, .str "a"])]) ∧
    asdict 2 regT true Option.none false
        (Val.inst "T" [("t", Val.tuple [.int 2, .str "a"])]) =
      .ok (Val.dict [(.str "t", Val.list [.int 2, .str "a"])]) := by
  constructor
  · have h := attrs_c8_retain.1 1 regT true "T"
      [("t", Val.tuple [.int 2, .str "a"])] _ [] [] ⟨"t", Option.none⟩
      [.int 2, .str "a"] [.int 2, .str "a"] [] [] rfl rfl
      (by simp [getattr, lookupField])
      (by rfl)
      (by simp [asdictItems, has, classOf, regT, lookupClass, exBind])
      (by simp [asdictLoop]) (by simp [asdictLoop])
    simpa using h
  · have h := attrs_c8_retain.1 1 regT false "T"
      [("t", Val.tuple [.int 2, .str "a"])] _ [] [] ⟨"t", Option.none⟩
      [.int 2, .str "a"] [.int 2, .str "a"] [] [] rfl rfl
      (by simp [getattr, lookupField])
      (by rfl)
      (by simp [asdictItems, has, classOf, regT, lookupClass, exBind])
      (by simp [asdictLoop]) (by simp [asdictLoop])
    simpa using h

/-! Claim C10. -/

theorem asdictEntry_str (fuel : Nat) (reg : Registry)
    (filt : Option (Attr → Val → Except PyErr Bool)) (retain : Bool)
    (s : String) (hreg : lookupClass reg "str" = Option.none) :
    asdictEntry fuel reg true filt retain (.str s) = .ok (.str s) := by
  simp [asdictEntry, has, classOf, hreg]

/-- C10: a string-valued field is an opaque leaf for recursive `asdict` —
never decomposed element-wise as a sequence — and is stored unchanged in
the result, for any `retain_collection_types` setting and any filter the
field has passed. -/
theorem attrs_c10_str_leaf :
    (∀ (fuel : Nat) (reg : Registry)
       (filt : Option (Attr → Val → Except PyErr Bool)) (retain : Bool)
       (s : String),
      lookupClass reg "str" = Option.none →
      asdictEntry fuel reg true filt retain (.str s) = .ok (.str s)) ∧
    (∀ (fuel : Nat) (reg : Registry) (retain : Bool) (cls : String)
       (fs : List (String × Val)) (attrs pre post : List Attr) (a : Attr)
       (s : String) (acc tail : List (String × Val)),
      lookupClass reg cls = some attrs →
      attrs = pre ++ a :: post →
      getattr (Val.inst cls fs) a.name = .ok (.str s) →
      lookupClass reg "str" = Option.none →
      asdictLoop fuel reg true Option.none retain (Val.inst cls fs) pre =
        .ok acc →
      asdictLoop fuel reg true Option.none retain (Val.inst cls fs) post =
        .ok tail →
      asdict (fuel + 1) reg true Option.none retain (Val.inst cls fs) =
        .ok (Val.dict ((acc ++ (a.name, Val.str s) :: tail).map
          (fun p => (Val.str p.1, p.2))))) := by
  constructor
  · intro fuel reg filt retain s hreg
    exact asdictEntry_str fuel reg filt retain s hreg
  · intro fuel reg retain cls fs attrs pre post a s acc tail hreg hsplit hget
      hnostr hpre hpost
    exact asdict_field_entry fuel reg retain cls fs attrs pre post a
      (.str s) _ acc tail hreg hsplit hget
      (asdictEntry_str fuel reg Option.none retain s hnostr) hpre hpost

/-- Witness for C10: a `T` instance whose field holds `"ab"` stores the
string unchanged even with `retain_collection_types=True`. -/
theorem attrs_c10_witness :
    asdict 2 regT true Option.none true
        (Val.inst "T" [("t", Val.str "ab")]) =
      .ok (Val.dict [(.str "t", Val.str "ab")]) := by
  have h := attrs_c10_str_leaf.2 1 regT true "T" [("t", Val.str "ab")] _ []
    [] ⟨"t", Option.none⟩ "ab" [] [] rfl rfl
    (by simp [getattr, lookupField]) (by rfl)
    (by simp [asdictLoop]) (by simp [asdictLoop])
  simpa using h

/-! Claim C2. -/

theorem asdictLoop_keys_filtered (fuel : Nat) (reg : Registry)
    (retain : Bool) (cls : String) (f : Attr → Val → Bool) :
    ∀ (attrs2 : List Attr) (fs1 fs2 pairs : List (String × Val)),
      fs2.map Prod.fst = attrs2.map Attr.name →
      ((fs1 ++ fs2).map Prod.fst).Nodup →
      asdictLoop fuel reg true (some (fun a v => .ok (f a v))) retain
        (Val.inst cls (fs1 ++ fs2)) attrs2 = .ok pairs →
      pairs.map Prod.fst =
        ((attrs2.zip fs2).filter (fun p => f p.1 p.2.2)).map
          (fun p => p.1.name) := by
  intro attrs2
  induction attrs2 with
  | nil =>
    intro fs1 fs2 pairs halign _ hloop
    have h2 : fs2 = [] := by
      cases fs2 with
      | nil => rfl
      | cons p r => simp at halign
    subst h2
    rw [asdictLoop] at hloop
    injection hloop with hloop
    subst hloop
    simp
  | cons a rest ih =>
    intro fs1 fs2 pairs halign hnd hloop
    cases fs2 with
    | nil => simp at halign
    | cons p fs2' =>
      obtain ⟨n, v⟩ := p
      simp only [List.map_cons] at halign
      have hn : n = a.name := (List.cons.injEq .. ▸ halign).1
      have htl : fs2'.map Prod.fst = rest.map Attr.name :=
        (List.cons.injEq .. ▸ halign).2
      subst hn
      have hget := getattr_aligned cls fs1 fs2' a.name v hnd
      rw [asdictLoop, hget] at hloop
      simp only [exBind_ok, filtCheck] at hloop
      rw [show fs1 ++ (a.name, v) :: fs2' = (fs1 ++ [(a.name, v)]) ++ fs2' by
        simp] at hloop
      cases hfv : f a v with
      | true =>
        rw [hfv] at hloop
        simp only [if_true] at hloop
        cases hent : asdictEntry fuel reg true
            (some (fun a v => Except.ok (f a v))) retain v with
        | error e => rw [hent] at hloop; simp [exBind] at hloop
        | ok v' =>
          rw [hent] at hloop
          simp only [exBind_ok] at hloop
          cases hrest : asdictLoop fuel reg true
              (some (fun a v => Except.ok (f a v))) retain
              (Val.inst cls ((fs1 ++ [(a.name, v)]) ++ fs2')) rest with
          | error e => rw [hrest] at hloop; simp [exBind] at hloop
          | ok tail =>
            rw [hrest] at hloop
            simp only [exBind_ok] at hloop
            injection hloop with hloop
            subst hloop
            have htail := ih (fs1 ++ [(a.name, v)]) fs2' tail htl
              (by simpa [List.append_assoc] using hnd) hrest
            simp [List.filter_cons, hfv, htail]
      | false =>
        rw [hfv] at hloop
        simp only [Bool.false_eq_true, if_false] at hloop
        have htail := ih (fs1 ++ [(a.name, v)]) fs2' pairs htl
          (by simpa [List.append_assoc] using hnd) hloop
        simp [List.filter_cons, hfv, htail]

theorem asdictLoop_keys_nofilter (fuel : Nat) (reg : Registry)
    (retain : Bool) (inst : Val) :
    ∀ (attrs2 : List Attr) (pairs : List (String × Val)),
      asdictLoop fuel reg true Option.none retain inst attrs2 = .ok pairs →
      pairs.map Prod.fst = attrs2.map Attr.name := by
  intro attrs2
  induction attrs2 with
  | nil =>
    intro pairs h
    rw [asdictLoop] at h
    injection h with h
    subst h
    rfl
  | cons a rest ih =>
    intro pairs h
    rw [asdictLoop] at h
    cases hg : getattr inst a.name with
    | error e => rw [hg] at h; simp [exBind] at h
    | ok v =>
      rw [hg] at h
      simp only [exBind_ok, filtCheck, if_true] at h
      cases hent : asdictEntry fuel reg true Option.none retain v with
      | error e => rw [hent] at h; simp [exBind] at h
      | ok v' =>
        rw [hent] at h
        simp only [exBind_ok] at h
        cases hrest : asdictLoop fuel reg true Option.none retain inst
            rest with
        | error e => rw [hrest] at h; simp [exBind] at h
        | ok tail =>
          rw [hrest] at h
          simp only [exBind_ok] at h
          injection h with h
          subst h
          simp [ih tail hrest]

/-- C2 (amended): at each level that `asdict` enters with the filter — the
top level, fields of nested attrs instances, and elements of
sequence-valued fields all forward it — the produced mapping holds exactly
the fields for which the filter returned true, in declaration order; a
conversion run with no filter (as `asdict` does for attrs keys and values
inside a mapping-valued field, which never receive the caller's filter)
omits nothing. -/
theorem attrs_c2_filter :
    (∀ (fuel : Nat) (reg : Registry) (retain : Bool) (cls : String)
       (f : Attr → Val → Bool) (attrs : List Attr)
       (fs : List (String × Val)) (d : Val),
      lookupClass reg cls = some attrs →
      fs.map Prod.fst = attrs.map Attr.name →
      (fs.map Prod.fst).Nodup →
      asdict (fuel + 1) reg true (some (fun a v => .ok (f a v))) retain
        (Val.inst cls fs) = .ok d →
      ∃ pairs : List (String × Val),
        d = Val.dict (pairs.map (fun p => (Val.str p.1, p.2))) ∧
        pairs.map Prod.fst =
          ((attrs.zip fs).filter (fun p => f p.1 p.2.2)).map
            (fun p => p.1.name)) ∧
    (∀ (fuel : Nat) (reg : Registry) (retain : Bool) (inst : Val)
       (attrs : List Attr) (d : Val),
      fieldsOf reg (classOf inst) = .ok attrs →
      asdict (fuel + 1) reg true Option.none retain inst = .ok d →
      ∃ pairs : List (String × Val),
        d = Val.dict (pairs.map (fun p => (Val.str p.1, p.2))) ∧
        pairs.map Prod.fst = attrs.map Attr.name) := by
  constructor
  · intro fuel reg retain cls f attrs fs d hreg halign hnd hd
    have hcls : classOf (Val.inst cls fs) = cls := rfl
    rw [asdict] at hd
    rw [hcls] at hd
    rw [show fieldsOf reg cls = .ok attrs by simp [fieldsOf, hreg]] at hd
    simp only [exBind_ok] at hd
    cases hloop : asdictLoop fuel reg true
        (some (fun a v => Except.ok (f a v))) retain (Val.inst cls fs)
        attrs with
    | error e => rw [hloop] at hd; simp [exBind] at hd
    | ok q =>
      rw [hloop] at hd
      simp only [exBind_ok] at hd
      injection hd with hd
      refine ⟨q, hd.symm, ?_⟩
      have := asdictLoop_keys_filtered fuel reg retain cls f attrs [] fs q
        halign (by simpa using hnd) (by simpa using hloop)
      exact this
  · intro fuel reg retain inst attrs d hflds hd
    rw [asdict, hflds] at hd
    simp only [exBind_ok] at hd
    cases hloop : asdictLoop fuel reg true Option.none retain inst attrs with
    | error e => rw [hloop] at hd; simp [exBind] at hd
    | ok q =>
      rw [hloop] at hd
      simp only [exBind_ok] at hd
      injection hd with hd
      exact ⟨q, hd.symm,
        asdictLoop_keys_nofilter fuel reg retain inst attrs q hloop⟩

/-- Classes `C` (untyped `x`, `y`) and `M` (one untyped field `m`). -/
def regM : Registry :=
  [("C", [⟨"x", Option.none⟩, ⟨"y", Option.none⟩]),
   ("M", [⟨"m", Option.none⟩])]

/-- C2 counterexample: with a filter rejecting the field named `y`, an
attrs instance sitting as a VALUE of a mapping-valued field is converted
without the filter — its `y` field is kept — so the filtering does not
apply inside declaratively-attributed values occurring in mapping fields,
contrary to the claim (which would demand the inner dict equal
`\x7b"x": 1\x7d`). -/
theorem attrs_c2_counterexample :
    asdict 3 regM true (some (fun a _ => .ok (a.name != "y"))) false
        (Val.inst "M" [("m", Val.dict
          [(.str "k", Val.inst "C" [("x", .int 1), ("y", .int 2)])])]) =
      .ok (Val.dict [(.str "m", Val.dict
        [(.str "k",
          Val.dict [(.str "x", .int 1), (.str "y", .int 2)])])]) ∧
    Val.dict [(.str "x", .int 1), (.str "y", .int 2)] ≠
      Val.dict [(.str "x", .int 1)] := by
  constructor
  · simp [asdict, asdictLoop, asdictEntry, asdictPairs, asdictItems, regM,
      fieldsOf, lookupClass, classOf, getattr, has, lookupField, exBind,
      filtCheck]
  · simp

/-- Witness for C2 at `C(1, 2)` with a filter rejecting `y`: the result
holds exactly the key `x`. -/
theorem attrs_c2_witness :
    ∃ pairs : List (String × Val),
      (Val.dict [(.str "x", .int 1)] : Val) =
        Val.dict (pairs.map (fun p => (Val.str p.1, p.2))) ∧
      pairs.map Prod.fst =
        ((([⟨"x", Option.none⟩, ⟨"y", Option.none⟩] : List Attr).zip
          [("x", Val.int 1), ("y", Val.int 2)]).filter
            (fun p => p.1.name != "y")).map (fun p => p.1.name) := by
  exact attrs_c2_filter.1 1 regC false "C" (fun a _ => a.name != "y")
    [⟨"x", Option.none⟩, ⟨"y", Option.none⟩]
    [("x", Val.int 1), ("y", Val.int 2)] (Val.dict [(.str "x", .int 1)])
    rfl (by simp) (by simp)
    (by simp [asdict, asdictLoop, asdictEntry, regC, fieldsOf, lookupClass,
      classOf, getattr, has, lookupField, exBind, filtCheck])

end Attrs
